import Mathlib

/-!
A shallow embedding of the calendar core of this repository: the ICS parser
and recurrence resolver (`src/services/calendarService.js`: `parseIcsContent`,
`processEvent`, `extractTimezone`, `parseIcsDate`) and the next-occurrence
projector (`generateNext5FromEvents` in the canvas route).

Modelling conventions:
* Luxon `DateTime` values are wall-clock calendar values tagged with an IANA
  zone name; the zones appearing in the inputs are mapped to fixed standard
  offsets (daylight-saving transitions are not modelled, and no verified
  property depends on them).  An invalid `DateTime` is `none`.
* JavaScript strings are processed over their character lists; `undefined`
  is `Option.none`; `a || b` falsiness of the empty string is modelled
  explicitly.
* The only runtime exception the modelled code can raise for string input,
  a `TypeError` from a property access on `undefined`, is modelled with
  `Except`.
* Ambient values (`DateTime.now()`, the generated session id) are parameters
  of the embedding.
-/

namespace CalendarModel

/-! ### JavaScript string primitives over character lists -/

/-- Whitespace recognised by JavaScript `trim` (the subset occurring in
calendar text). -/
def isSpaceC (c : Char) : Bool :=
  c == ' ' || c == '\t' || c == '\r' || c == '\n'

/-- JavaScript `String.prototype.trim`. -/
def jsTrim (s : List Char) : List Char :=
  ((s.dropWhile isSpaceC).reverse.dropWhile isSpaceC).reverse

/-- `beginsWith p s` holds when `p` is an initial segment of `s`
(JavaScript `startsWith`). -/
def beginsWith : List Char → List Char → Bool
  | [], _ => true
  | _ :: _, [] => false
  | p :: ps, c :: cs => p == c && beginsWith ps cs

/-- JavaScript `String.prototype.includes`. -/
def containsSub (pat : List Char) : List Char → Bool
  | [] => beginsWith pat []
  | c :: cs => beginsWith pat (c :: cs) || containsSub pat cs

/-- JavaScript `String.prototype.endsWith` for a single character. -/
def endsWithC (c : Char) (s : List Char) : Bool :=
  s.getLast? == some c

/-- Step-indexed worker for `splitOnSub`; the budget is the string length
plus one, which the scan can never exhaust, so the budget-zero arm is
unreachable for the wrapper's uses. -/
def splitOnSubGo (pat : List Char) : Nat → List Char → List Char → List (List Char)
  | _, [], acc => [acc.reverse]
  | 0, s, acc => [acc.reverse ++ s]
  | fuel + 1, c :: cs, acc =>
    if beginsWith pat (c :: cs) then
      acc.reverse :: splitOnSubGo pat fuel (cs.drop (pat.length - 1)) []
    else splitOnSubGo pat fuel cs (c :: acc)

/-- JavaScript `String.prototype.split` with a nonempty string separator. -/
def splitOnSub (pat s : List Char) : List (List Char) :=
  splitOnSubGo pat (s.length + 1) s []

/-- JavaScript `String.prototype.split` with a single-character separator. -/
def splitOnChar (sep : Char) : List Char → List (List Char)
  | [] => [[]]
  | c :: cs =>
    if c == sep then [] :: splitOnChar sep cs
    else
      match splitOnChar sep cs with
      | [] => [[c]]
      | g :: gs => (c :: g) :: gs

/-- JavaScript `String.prototype.replace` with a string pattern: remove the
first occurrence of `pat`. -/
def removeFirst (pat : List Char) : List Char → List Char
  | [] => []
  | c :: cs =>
    if beginsWith pat (c :: cs) then cs.drop (pat.length - 1)
    else c :: removeFirst pat cs

/-- JavaScript `String.prototype.substring a b` for `a ≤ b` (with clamping
past the end of the string). -/
def substringJS (a b : Nat) (s : List Char) : List Char :=
  (s.drop a).take (b - a)

/-- Value of a nonempty leading digit run. -/
def digitsVal (l : List Char) : Option Nat :=
  let ds := l.takeWhile Char.isDigit
  if ds.isEmpty then none
  else some (ds.foldl (fun a c => a * 10 + (c.toNat - 48)) 0)

/-- JavaScript `parseInt(v)` restricted to base-10 numerals: leading
whitespace, an optional sign, then leading digits; `none` models `NaN`.
(The hexadecimal `0x` form of `parseInt` is not modelled; no input
considered here uses it.) -/
def jsParseInt (s : List Char) : Option Int :=
  let t := s.dropWhile isSpaceC
  match t with
  | '-' :: rest => (digitsVal rest).map (fun n => -(n : Int))
  | '+' :: rest => (digitsVal rest).map (fun n => (n : Int))
  | _ => (digitsVal t).map (fun n => (n : Int))

/-- JavaScript `a || b` where `a` is a possibly-undefined string and `b` a
string: `undefined` and the empty string are falsy. -/
def jsOrStr (a : Option String) (b : String) : String :=
  match a with
  | some s => if s = "" then b else s
  | none => b

/-- JavaScript `a || b` on two possibly-undefined strings. -/
def jsOrOpt (a b : Option String) : Option String :=
  match a with
  | some s => if s = "" then b else some s
  | none => b

/-- Truthiness of a possibly-undefined string. -/
def jsTruthyS (a : Option String) : Bool :=
  match a with
  | some s => decide (s ≠ "")
  | none => false

/-- Rendering of a possibly-undefined string inside a template literal. -/
def showUid (u : Option String) : String :=
  match u with
  | some s => s
  | none => "undefined"

/-- First successful match of the regular expression `TZID=([^:]+):`,
scanning left to right as a backtracking engine does: a nonempty run of
non-colon characters between a literal `TZID=` and a colon. -/
def tzidCapture : List Char → Option (List Char)
  | [] => none
  | c :: cs =>
    if beginsWith ("TZID=".data) (c :: cs) then
      let after := (c :: cs).drop 5
      let cap := after.takeWhile (· != ':')
      if cap.isEmpty then tzidCapture cs
      else
        match after.drop cap.length with
        | ':' :: _ => some cap
        | _ => tzidCapture cs
    else tzidCapture cs

/-- First successful match of `BYDAY=([^;]+)`: a nonempty run of
non-semicolon characters after a literal `BYDAY=`. -/
def bydayCapture : List Char → Option (List Char)
  | [] => none
  | c :: cs =>
    if beginsWith ("BYDAY=".data) (c :: cs) then
      let cap := ((c :: cs).drop 6).takeWhile (· != ';')
      if cap.isEmpty then bydayCapture cs else some cap
    else bydayCapture cs

/-- First successful match of `pat([^\r\n]+)`: a nonempty run of characters
up to a line break after the literal `pat` (used for the `UID:` and
`RRULE:` captures of the prepass). -/
def lineCapture (pat : List Char) : List Char → Option (List Char)
  | [] => none
  | c :: cs =>
    if beginsWith pat (c :: cs) then
      let cap := ((c :: cs).drop pat.length).takeWhile (fun x => x != '\r' && x != '\n')
      if cap.isEmpty then lineCapture pat cs else some cap
    else lineCapture pat cs

/-- JavaScript `word.charAt(0).toUpperCase() + word.slice(1)`. -/
def capWord (w : List Char) : List Char :=
  match w with
  | [] => []
  | c :: cs => c.toUpper :: cs

/-- JavaScript `Array.prototype.join`. -/
def joinWith (sep : List Char) : List (List Char) → List Char
  | [] => []
  | [w] => w
  | w :: ws => w ++ sep ++ joinWith sep ws

/-! ### Small JavaScript `Map` / `Set` models (association lists) -/

/-- JavaScript `Map.get`. -/
def mapGet {α : Type} (m : List (String × α)) (k : String) : Option α :=
  (m.find? (fun kv => kv.1 == k)).map Prod.snd

/-- JavaScript `Map.set` (overwrite, keeping the original position). -/
def mapSet {α : Type} (m : List (String × α)) (k : String) (v : α) : List (String × α) :=
  if (m.find? (fun kv => kv.1 == k)).isSome then
    m.map (fun kv => if kv.1 == k then (k, v) else kv)
  else m ++ [(k, v)]

/-- JavaScript `Set.add` (insertion order preserved). -/
def setAdd (g : List String) (a : String) : List String :=
  if g.contains a then g else g ++ [a]

/-! ### The Luxon DateTime model -/

/-- A valid Luxon `DateTime`: a wall-clock calendar value tagged with a zone
name.  `day` counts calendar days from 1970-01-01 in the value's own zone;
`h`, `mi`, `s` are the time of day.  Milliseconds are not carried: every
datetime constructed by the code under study has millisecond 0. -/
structure ZDT where
  day : Int
  h : Int
  mi : Int
  s : Int
  zone : String
deriving DecidableEq, Repr

/-- An invalid Luxon `DateTime` is `none`. -/
abbrev LuxonDT := Option ZDT

/-- Fixed standard offsets (seconds east of UTC) for the zones appearing in
this development.  Unknown zone names yield `none`, which makes dependent
datetimes invalid, as in Luxon. -/
def zoneOffsetOpt (zone : String) : Option Int :=
  if zone = "UTC" then some 0
  else if zone = "America/New_York" then some (-18000)
  else if zone = "America/Chicago" then some (-21600)
  else none

/-- Seconds of local wall-clock time since the local 1970-01-01 00:00. -/
def wallSecs (z : ZDT) : Int :=
  z.day * 86400 + z.h * 3600 + z.mi * 60 + z.s

/-- The instant (seconds since the Unix epoch) named by a datetime. -/
def instant (z : ZDT) : Int :=
  wallSecs z - (zoneOffsetOpt z.zone).getD 0

/-- Normalised datetime for a local wall-clock second count. -/
def fromWallSecs (t : Int) (zone : String) : ZDT :=
  ⟨t / 86400, (t % 86400) / 3600, ((t % 86400) % 3600) / 60, (t % 86400) % 60, zone⟩

/-- Datetime of an instant in a zone (`none` for an unknown zone). -/
def fromInstant (i : Int) (zone : String) : LuxonDT :=
  (zoneOffsetOpt zone).map (fun off => fromWallSecs (i + off) zone)

/-- Luxon `setZone`: same instant, wall clock recomputed in the new zone. -/
def setZoneD (dt : LuxonDT) (zone : String) : LuxonDT :=
  dt.bind (fun z => fromInstant (instant z) zone)

/-- Luxon `<` on DateTimes: instants are compared; any comparison against an
invalid datetime is false (`NaN` semantics). -/
def ltD (a b : LuxonDT) : Bool :=
  match a, b with
  | some x, some y => decide (instant x < instant y)
  | _, _ => false

/-- Luxon `>` on DateTimes, with the same `NaN` semantics. -/
def gtD (a b : LuxonDT) : Bool :=
  match a, b with
  | some x, some y => decide (instant y < instant x)
  | _, _ => false

/-- Luxon weekday of an epoch day number (1 = Monday … 7 = Sunday);
1970-01-01 was a Thursday. -/
def weekdayOfDay (d : Int) : Int := (d + 3) % 7 + 1

/-- Luxon `weekday`; `none` is `NaN`. -/
def weekdayD (dt : LuxonDT) : Option Int := dt.map (fun z => weekdayOfDay z.day)

/-- Luxon `hour`; `none` is `NaN`. -/
def hourD (dt : LuxonDT) : Option Int := dt.map ZDT.h

/-- Luxon `minute`; `none` is `NaN`. -/
def minuteD (dt : LuxonDT) : Option Int := dt.map ZDT.mi

/-- Luxon `startOf('day')`. -/
def startOfDayD (dt : LuxonDT) : LuxonDT :=
  dt.map (fun z => { z with h := 0, mi := 0, s := 0 })

/-- Luxon `plus({days: n})`: calendar-day arithmetic keeping the wall time. -/
def plusDaysD (dt : LuxonDT) (n : Int) : LuxonDT :=
  dt.map (fun z => { z with day := z.day + n })

/-- Luxon `plus(duration)` for a duration in seconds; with the fixed offsets
of this model a shift of the instant is a shift of the wall clock. -/
def plusSecsZ (z : ZDT) (dsec : Int) : ZDT :=
  fromWallSecs (wallSecs z + dsec) z.zone

/-- Luxon `toMillis`; `none` is `NaN`. -/
def toMillisD (dt : LuxonDT) : Option Int := dt.map (fun z => instant z * 1000)

/-- Luxon `DateTime.max a b` (reduce semantics: the later instant wins, the
first argument on ties, an invalid first argument poisons the result). -/
def maxD (a b : LuxonDT) : LuxonDT :=
  match a, b with
  | some x, some y => if instant y > instant x then some y else some x
  | some x, none => some x
  | none, _ => none

/-- Days from 1970-01-01 of the Gregorian date `y-m-d` (the standard
civil-calendar correspondence Luxon uses). -/
def daysFromCivil (y m d : Int) : Int :=
  let y' := if m ≤ 2 then y - 1 else y
  let era := y' / 400
  let yoe := y' - era * 400
  let mp := (m + 9) % 12
  let doy := (153 * mp + 2) / 5 + d - 1
  let doe := yoe * 365 + yoe / 4 - yoe / 100 + doy
  era * 146097 + doe - 719468

/-- Gregorian leap-year rule. -/
def isLeapYear (y : Int) : Bool :=
  (y % 4 == 0 && y % 100 != 0) || y % 400 == 0

/-- Days in a Gregorian month. -/
def daysInMonth (y m : Int) : Int :=
  if m = 2 then (if isLeapYear y then 29 else 28)
  else if m = 4 ∨ m = 6 ∨ m = 9 ∨ m = 11 then 30
  else 31

/-- Calendar validity of a `fromObject` date. -/
def validDate (y m d : Int) : Bool :=
  decide (1 ≤ m ∧ m ≤ 12 ∧ 1 ≤ d ∧ d ≤ daysInMonth y m)

/-- Range validity of a `fromObject` time of day. -/
def validTime (h mi s : Int) : Bool :=
  decide (0 ≤ h ∧ h < 24 ∧ 0 ≤ mi ∧ mi < 60 ∧ 0 ≤ s ∧ s < 60)

/-- Luxon `DateTime.fromObject` with a zone: `NaN` fields (`none`), an
out-of-range calendar field, or an unknown zone produce an invalid
datetime. -/
def fromObjectD (y m d h mi s : Option Int) (zone : String) : LuxonDT :=
  y.bind fun yv => m.bind fun mv => d.bind fun dv => h.bind fun hv =>
    mi.bind fun miv => s.bind fun sv =>
      if validDate yv mv dv && validTime hv miv sv && (zoneOffsetOpt zone).isSome then
        some ⟨daysFromCivil yv mv dv, hv, miv, sv, zone⟩
      else none

/-! ### Date and timezone extraction (`extractTimezone`, `parseIcsDate`) -/

/-- `extractTimezone` of calendarService: a `TZID` parameter wins, otherwise
a trailing literal `Z` means UTC, otherwise the documented default zone.
It receives the whole property line at the call sites. -/
def extractTimezone (dateValue : String) : String :=
  if containsSub ("TZID=".data) dateValue.data then
    match tzidCapture dateValue.data with
    | some cap => String.mk cap
    | none => "America/New_York"
  else if endsWithC 'Z' dateValue.data then "UTC"
  else "America/New_York"

/-- `parseIcsDate` of calendarService.  The `fromISO` fallback branch (a
value that is neither the 8-digit date form nor a date-time with `T`) is
modelled as an invalid datetime; no DTSTART/DTEND value of the forms
considered here reaches it.  The `try/catch` of the source is dead for
string inputs — Luxon constructors return invalid datetimes rather than
throwing — so no error case arises. -/
def parseIcsDate (icsDate : String) (timezone : Option String) : LuxonDT :=
  let v := icsDate.data
  let zone :=
    match timezone with
    | some z => z
    | none => if endsWithC 'Z' v then "UTC" else "America/New_York"
  if v.length = 8 then
    fromObjectD (jsParseInt (substringJS 0 4 v)) (jsParseInt (substringJS 4 6 v))
      (jsParseInt (substringJS 6 8 v)) (some 0) (some 0) (some 0) zone
  else if v.contains 'T' then
    let cleaned := removeFirst ("Z".data) v
    let parts := splitOnSub ("T".data) cleaned
    let datePart := parts.headD []
    let timePart :=
      match (parts.drop 1).head? with
      | some t => if t.isEmpty then "000000".data else t
      | none => "000000".data
    let finalZone := if endsWithC 'Z' v then "UTC" else zone
    fromObjectD (jsParseInt (substringJS 0 4 datePart)) (jsParseInt (substringJS 4 6 datePart))
      (jsParseInt (substringJS 6 8 datePart)) (jsParseInt (substringJS 0 2 timePart))
      (jsParseInt (substringJS 2 4 timePart)) (jsParseInt (substringJS 4 6 timePart)) finalZone
  else none

/-! ### Raw and resolved event records -/

/-- JavaScript runtime error of the modelled code: a property access on
`undefined`. -/
inductive JsErr where
  | typeError
deriving DecidableEq, Repr

/-- The `currentEvent` object accumulated while scanning one VEVENT block.
A field being `none` models the property being absent (`undefined`);
`startDate = some none` models a present property parsed to an invalid
datetime. -/
structure CurEvent where
  summary : Option String := none
  description : Option String := none
  location : Option String := none
  uid : Option String := none
  status : Option String := none
  rrule : Option String := none
  categories : Option String := none
  created : Option LuxonDT := none
  lastModified : Option LuxonDT := none
  deadlineOffset : Option Int := none
  startDate : Option LuxonDT := none
  startTimezone : Option String := none
  endDate : Option LuxonDT := none
  endTimezone : Option String := none
  otherProps : List (String × String) := []
deriving DecidableEq, Repr

/-- `Object.keys(currentEvent).length > 0` is false exactly when no
property has been set. -/
def emptyEvent (c : CurEvent) : Bool :=
  c.summary.isNone && c.description.isNone && c.location.isNone && c.uid.isNone &&
  c.status.isNone && c.rrule.isNone && c.categories.isNone && c.created.isNone &&
  c.lastModified.isNone && c.deadlineOffset.isNone && c.startDate.isNone &&
  c.startTimezone.isNone && c.endDate.isNone && c.endTimezone.isNone &&
  c.otherProps.isEmpty

/-- A parsed event as stored in `eventsByDayPattern` (the ResolvedEvent of
the spec).  The `start.dateTime`/`end.dateTime` ISO strings of the source
are carried as the datetime values they render (the legacy duplicate
`startDate`/`endDate`/`uid` fields of the source object repeat
`startDT`/`endDT`/`originalUid` and are not duplicated here). -/
structure PEvent where
  summary : String
  description : String
  startDT : LuxonDT
  startTZ : String
  endDT : LuxonDT
  endTZ : String
  recurrence : Option String
  source : String
  originalUid : Option String
  sessionId : String
  isRecurring : Bool
  deadlineOffset : Option Int
deriving DecidableEq, Repr

/-- Dedup keys of `eventsByDayPattern`.  The source renders them as the
strings `baseUid_dayIndex_h:mm` and `uid_millis`; both renderings are
injective in the listed components, so the components are kept directly.
`none` components model `NaN`/`undefined` rendered into the key string. -/
inductive EvKey where
  | recur (baseUid : String) (dayIndex : Int) (hour minute : Option Int)
  | once (uid : Option String) (millis : Option Int)
deriving DecidableEq, Repr

/-- The dedup map, in insertion order (as `Map` iteration is). -/
abbrev EvMap := List (EvKey × PEvent)

/-- Key membership in the dedup map. -/
def hasKey (m : EvMap) (k : EvKey) : Bool := m.any (fun kv => kv.1 == k)

/-- `Map.set` only when the key is absent: the dedup discipline of
`processEvent` (first write wins). -/
def insertIfAbsent (m : EvMap) (kv : EvKey × PEvent) : EvMap :=
  if hasKey m kv.1 then m else m ++ [kv]

/-- Insert a batch of entries in order, first write winning. -/
def insertEntries (m : EvMap) (es : List (EvKey × PEvent)) : EvMap :=
  es.foldl insertIfAbsent m

/-! ### The resolver (`processEvent`) -/

/-- `dayNames` of processEvent (JavaScript weekday order). -/
def dayNames : List String := ["SU", "MO", "TU", "WE", "TH", "FR", "SA"]

/-- Worker for `dayIdx`. -/
def idxInAux (s : String) : List String → Int → Int
  | [], _ => -1
  | x :: xs, i => if x == s then i else idxInAux s xs (i + 1)

/-- JavaScript `dayNames.indexOf(day)` where `day` may be `undefined`. -/
def dayIdx (d : Option String) : Int :=
  match d with
  | none => -1
  | some s => idxInAux s dayNames 0

/-- JavaScript `dayNames[i]` for a possibly out-of-range index. -/
def dayNamesGet (i : Int) : Option String :=
  if 0 ≤ i ∧ i < 7 then dayNames.get? i.toNat else none

/-- Line 249 of processEvent: `dayNames[weekday === 7 ? 0 : weekday]`,
`undefined` when the weekday is `NaN`. -/
def defaultDayName (sd : LuxonDT) : Option String :=
  match weekdayD sd with
  | none => none
  | some w => dayNamesGet (if w = 7 then 0 else w)

/-- Lines 211–229 of `processEvent`: advance a stale recurring start to the
next occurrence of its weekday after `todayInEventTz` (`t`), preserving the
time of day, and carry the end along by the original duration. -/
def advancePair (t s : ZDT) (endD : LuxonDT) : ZDT × LuxonDT :=
  let eventDow := weekdayOfDay s.day
  let todayDow := weekdayOfDay t.day
  let d0 := (eventDow - todayDow + 7) % 7
  let daysToAdd := if d0 = 0 then 7 else d0
  let nxt : ZDT := { t with day := t.day + daysToAdd, h := s.h, mi := s.mi, s := s.s }
  let nextEnd := endD.map (fun e => plusSecsZ nxt (instant e - instant s))
  (nxt, nextEnd)

/-- Lines 193–201 of `processEvent`: display source from `CATEGORIES`
(capitalised, dashes to spaces), else the default source name. -/
def eventSourceOf (categories : Option String) (defaultSourceName : String) : String :=
  if jsTruthyS categories then
    String.mk (joinWith (" ".data)
      ((splitOnChar '-' ((categories.getD "").data)).map capWord))
  else defaultSourceName

/-- Base UID: the part of the raw UID before the `--` delimiter (empty for
an absent UID). -/
def baseUidOf (uid : Option String) : String :=
  match uid with
  | some u => String.mk ((splitOnSub ("--".data) u.data).headD [])
  | none => ""

/-- The stale-date advancement guard of `processEvent` (lines 210–230):
`sd0` is the parsed start, `endD0` the parsed end (or the start when absent),
`todayTz` today's midnight moved into the event timezone. -/
def advStart (sd0 endD0 todayTz : LuxonDT) (isRec : Bool) : LuxonDT × LuxonDT :=
  if isRec && ltD sd0 todayTz then
    match sd0, todayTz with
    | some s, some t =>
      let p := advancePair t s endD0
      (some p.1, p.2)
    | _, _ => (sd0, endD0)
  else (sd0, endD0)

/-- The possibly-advanced (start, end) pair of a raw event. -/
def advancedPairOf (cur : CurEvent) (isRec : Bool) (today : LuxonDT) :
    LuxonDT × LuxonDT :=
  match cur.startDate with
  | none => (none, none)
  | some sd0 =>
    advStart sd0
      (match cur.endDate with
        | some e => e
        | none => sd0)
      (setZoneD today (jsOrStr cur.startTimezone "America/New_York")) isRec

/-- The description template of a stored event. -/
def descrOf (cur : CurEvent) (defaultSourceName sessionId : String) : String :=
  (jsOrStr cur.description "") ++ "\n\nSource: " ++
    eventSourceOf cur.categories defaultSourceName ++
    "\noriginalUuid: " ++ showUid cur.uid ++ "\nsessionId: " ++ sessionId

/-- The `daysInRule` list of `processEvent` (lines 238–250): the split
`BYDAY` capture of the governing rule, defaulting to the (possibly
advanced) start's own weekday when the rule lists no weekday. -/
def daysInRuleOf (rawRrule : Option String) (sd : LuxonDT) : List (Option String) :=
  let fromRule : List (Option String) :=
    if jsTruthyS rawRrule && containsSub ("BYDAY=".data) ((rawRrule.getD "").data) then
      match bydayCapture ((rawRrule.getD "").data) with
      | some cap => (splitOnChar ',' cap).map (fun w => some (String.mk w))
      | none => []
    else []
  if fromRule.isEmpty then [defaultDayName sd] else fromRule

/-- The stored value of one per-weekday recurring entry. -/
def recValueOf (cur : CurEvent) (defaultSourceName sessionId : String)
    (adv : LuxonDT × LuxonDT) (d : Option String) : PEvent :=
  { summary := jsOrStr cur.summary "Untitled Event"
    description := descrOf cur defaultSourceName sessionId
    startDT := adv.1
    startTZ := jsOrStr cur.startTimezone "America/New_York"
    endDT := adv.2
    endTZ := jsOrStr cur.endTimezone (jsOrStr cur.startTimezone "America/New_York")
    recurrence := some ("RRULE:FREQ=WEEKLY;BYDAY=" ++ d.getD "")
    source := eventSourceOf cur.categories defaultSourceName
    originalUid := cur.uid
    sessionId := sessionId
    isRecurring := true
    deadlineOffset := some (cur.deadlineOffset.getD 2) }

/-- The entries inserted for a recurring event: one per listed valid
weekday (lines 252–287 of `processEvent`). -/
def recEntriesOf (cur : CurEvent) (rawRrule : Option String)
    (defaultSourceName sessionId : String) (adv : LuxonDT × LuxonDT) :
    List (EvKey × PEvent) :=
  ((daysInRuleOf rawRrule adv.1).filter (fun d => dayIdx d != -1)).map (fun d =>
    (EvKey.recur (baseUidOf cur.uid) (dayIdx d) (hourD adv.1) (minuteD adv.1),
      recValueOf cur defaultSourceName sessionId adv d))

/-- The single entry inserted for a one-time event (lines 288–316). -/
def oneTimeEntryOf (cur : CurEvent) (defaultSourceName sessionId : String)
    (adv : LuxonDT × LuxonDT) : EvKey × PEvent :=
  (EvKey.once cur.uid (toMillisD adv.1),
    { summary := jsOrStr cur.summary "Untitled Event"
      description := descrOf cur defaultSourceName sessionId
      startDT := adv.1
      startTZ := jsOrStr cur.startTimezone "America/New_York"
      endDT := adv.2
      endTZ := jsOrStr cur.endTimezone (jsOrStr cur.startTimezone "America/New_York")
      recurrence := none
      source := eventSourceOf cur.categories defaultSourceName
      originalUid := cur.uid
      sessionId := sessionId
      isRecurring := false
      deadlineOffset := some (cur.deadlineOffset.getD 2) })

/-- The entries (key–value pairs) `processEvent` inserts for one raw event.
`Except.error` models the `TypeError` thrown at the `timeKey` template
(`eventStartTime.hour`) when the block carried no DTSTART. -/
def processEntries (cur : CurEvent) (rawRrule : Option String) (isRec : Bool)
    (today : LuxonDT) (defaultSourceName sessionId : String) :
    Except JsErr (List (EvKey × PEvent)) :=
  match cur.startDate with
  | none => .error .typeError
  | some _ =>
    let adv := advancedPairOf cur isRec today
    if isRec then
      .ok (recEntriesOf cur rawRrule defaultSourceName sessionId adv)
    else
      .ok [oneTimeEntryOf cur defaultSourceName sessionId adv]

/-- The END:VEVENT handling of `parseIcsContent` for one accumulated block:
skip empty blocks, look up the side rule table, exclude past one-time
events, then compute the entries `processEvent` inserts. -/
def recordEntries (rm : List (String × String)) (today : LuxonDT)
    (defaultSourceName sessionId : String) (cur : CurEvent) :
    Except JsErr (List (EvKey × PEvent)) :=
  if emptyEvent cur then .ok []
  else
    let rawRrule := jsOrOpt (cur.uid.bind (fun u => mapGet rm u)) (mapGet rm (baseUidOf cur.uid))
    let isRec := jsTruthyS rawRrule || jsTruthyS cur.rrule
    if !isRec && cur.startDate.isSome then
      let eventTimezone := jsOrStr cur.startTimezone "America/New_York"
      let todayTz := setZoneD today eventTimezone
      if ltD (cur.startDate.getD none) todayTz then .ok []
      else processEntries cur rawRrule isRec today defaultSourceName sessionId
    else processEntries cur rawRrule isRec today defaultSourceName sessionId

/-- One resolved record folded into the dedup map. -/
def resolveRecord (rm : List (String × String)) (today : LuxonDT)
    (defaultSourceName sessionId : String) (m : EvMap) (cur : CurEvent) :
    Except JsErr EvMap :=
  (recordEntries rm today defaultSourceName sessionId cur).map (insertEntries m)

/-- Folding a list of raw records into the dedup map — the resolver's
`resolve(rawRecords, sideRuleTable, now)` contract. -/
def resolveList (rm : List (String × String)) (today : LuxonDT)
    (defaultSourceName sessionId : String) : EvMap → List CurEvent → Except JsErr EvMap
  | m, [] => .ok m
  | m, c :: cs =>
    match resolveRecord rm today defaultSourceName sessionId m c with
    | .ok m' => resolveList rm today defaultSourceName sessionId m' cs
    | .error e => .error e

/-! ### The line scanner (`parseIcsContent`) -/

/-- The property dispatch for one `PROPERTY[;PARAMS]:VALUE` line inside a
VEVENT block (lines 113–167 of `parseIcsContent`). -/
def applyProp (cur : CurEvent) (line property value : String) : CurEvent :=
  if beginsWith ("DTSTART".data) property.data then
    let tz := extractTimezone line
    { cur with startDate := some (parseIcsDate value (some tz)), startTimezone := some tz }
  else if beginsWith ("DTEND".data) property.data then
    let tz := extractTimezone line
    { cur with endDate := some (parseIcsDate value (some tz)), endTimezone := some tz }
  else if property = "SUMMARY" then { cur with summary := some value }
  else if property = "DESCRIPTION" then { cur with description := some value }
  else if property = "LOCATION" then { cur with location := some value }
  else if property = "UID" then { cur with uid := some value }
  else if property = "STATUS" then { cur with status := some value }
  else if property = "RRULE" then { cur with rrule := some value }
  else if property = "CATEGORIES" then { cur with categories := some value }
  else if property = "CREATED" then
    { cur with created := some (parseIcsDate value (some "UTC")) }
  else if property = "LAST-MODIFIED" then
    { cur with lastModified := some (parseIcsDate value (some "UTC")) }
  else if property = "X-PUB-DEADLINE-OFFSET" then
    { cur with deadlineOffset := some ((jsParseInt value.data).getD 0) }
  else { cur with otherProps := mapSet cur.otherProps property value }

/-- Scanner state of the `parseIcsContent` line loop.  The diagnostic
counters of the source (`totalProcessed`, `pastEvents`, `futureEvents`) are
only logged and never returned, so they are not carried here. -/
structure ScanSt where
  inEvent : Bool := false
  cur : Option CurEvent := none
  m : EvMap := []
deriving Repr

/-- One step of the line loop of `parseIcsContent` (lines 79–169). -/
def scanLine (rm : List (String × String)) (today : LuxonDT)
    (defaultSourceName sessionId : String) (st : ScanSt) (line : String) :
    Except JsErr ScanSt :=
  if line = "BEGIN:VEVENT" then
    .ok { st with inEvent := true, cur := some {} }
  else if line = "END:VEVENT" ∧ st.inEvent then
    match st.cur with
    | some c =>
      match resolveRecord rm today defaultSourceName sessionId st.m c with
      | .ok m' => .ok { inEvent := false, cur := none, m := m' }
      | .error e => .error e
    | none => .ok { st with inEvent := false, cur := none }
  else if st.inEvent ∧ containsSub (":".data) line.data then
    let colonIdx := (line.data.takeWhile (· != ':')).length
    let property := String.mk (line.data.take colonIdx)
    let value := String.mk (line.data.drop (colonIdx + 1))
    .ok { st with cur := some (applyProp (st.cur.getD {}) line property value) }
  else .ok st

/-- The whole line loop. -/
def scanLines (rm : List (String × String)) (today : LuxonDT)
    (defaultSourceName sessionId : String) : ScanSt → List String → Except JsErr ScanSt
  | st, [] => .ok st
  | st, l :: ls =>
    match scanLine rm today defaultSourceName sessionId st l with
    | .ok st' => scanLines rm today defaultSourceName sessionId st' ls
    | .error e => .error e

/-- The RRULE prepass (lines 38–53): map each block's base UID (the part
before the `--` delimiter) to its RRULE string; later blocks overwrite. -/
def buildRruleMap (content : String) : List (String × String) :=
  (splitOnSub ("BEGIN:VEVENT".data) content.data).foldl
    (fun rm block =>
      if containsSub ("UID:".data) block && containsSub ("RRULE:".data) block then
        match lineCapture ("UID:".data) block, lineCapture ("RRULE:".data) block with
        | some u, some r =>
          let fullUid := jsTrim u
          let baseUid := (splitOnSub ("--".data) fullUid).headD []
          mapSet rm (String.mk baseUid) (String.mk (jsTrim r))
        | _, _ => rm
      else rm) []

/-- Lines 57–63: display name derived from the source URL's filename. -/
def sourceNameOf (sourceUrl : String) : String :=
  let urlParts := splitOnChar '/' sourceUrl.data
  let filename := urlParts.getLastD []
  let base := removeFirst (".ics".data) filename
  let spaced := base.map (fun c => if c == '-' then ' ' else c)
  String.mk (joinWith (" ".data) ((splitOnChar ' ' spaced).map capWord))

/-- `parseIcsContent`: prepass, line scan over trimmed lines, then the
map's values in insertion order.  `today` (the ambient
`DateTime.now().startOf('day')`) and the generated session id are
parameters of the embedding. -/
def parseIcsContent (content sourceUrl : String) (today : LuxonDT)
    (sessionId : String) : Except JsErr (List PEvent) :=
  let rm := buildRruleMap content
  let dsn := sourceNameOf sourceUrl
  let lines := (splitOnChar '\n' content.data).map (fun l => String.mk (jsTrim l))
  (scanLines rm today dsn sessionId {} lines).map (fun st => st.m.map Prod.snd)

/-! ### The projector (`generateNext5FromEvents`) -/

/-- A projected occurrence (the tuple pushed by the projector). -/
structure Occ where
  runDate : ZDT
  submissionDate : ZDT
  timezone : String
  timezoneAbbr : String
  deadlineOffset : Int
deriving DecidableEq, Repr

/-- `getTimezoneAbbreviation` (`offsetNameShort`) under the fixed standard
offsets of this model; no verified property depends on the rendered
abbreviation. -/
def tzAbbr (zone : String) : String :=
  if zone = "UTC" then "UTC"
  else if zone = "America/New_York" then "EST"
  else if zone = "America/Chicago" then "CST"
  else zone

/-- The `dayMap` of the projector, in insertion order. -/
def dayMapPairs : List (String × Int) :=
  [("MO", 1), ("TU", 2), ("WE", 3), ("TH", 4), ("FR", 5), ("SA", 6), ("SU", 7)]

/-- `Object.keys(dayMap).find(key => dayMap[key] === weekday)`. -/
def abbrOfWeekday (w : Int) : Option String :=
  (dayMapPairs.find? (fun kv => kv.2 == w)).map Prod.fst

/-- Lines 297–313: collect the recurring day abbreviations (a `Set`) and a
per-abbreviation deadline-offset map; a later event overwrites an earlier
offset for the same abbreviation, as `Map.set` does.  The whole `BYDAY`
capture is added unsplit, exactly as in the source. -/
def collectRule (events : List PEvent) : List String × List (String × Int) :=
  events.foldl
    (fun gd e =>
      match e.recurrence with
      | some r =>
        if r ≠ "" then
          match bydayCapture r.data with
          | some cap =>
            let a := String.mk cap
            (setAdd gd.1 a, mapSet gd.2 a (e.deadlineOffset.getD 2))
          | none => gd
        else gd
      | none => gd)
    ([], [])

/-- Whether a candidate day's weekday abbreviation is in the governed set. -/
def governedDay (g : List String) (d : Int) : Bool :=
  match abbrOfWeekday (weekdayOfDay d) with
  | some a => g.contains a
  | none => false

/-- The submission deadline for a candidate day: the noon run date minus
the day's offset (2 when the offset map has no entry). -/
def deadlineOf (offs : List (String × Int)) (zone : String) (d : Int) : ZDT :=
  let a := abbrOfWeekday (weekdayOfDay d)
  let off := (a.bind (fun s => mapGet offs s)).getD 2
  ⟨d - off, 12, 0, 0, zone⟩

/-- The occurrence pushed for an accepted candidate day. -/
def mkOcc (offs : List (String × Int)) (tz zone : String) (d : Int) : Occ :=
  let a := abbrOfWeekday (weekdayOfDay d)
  let off := (a.bind (fun s => mapGet offs s)).getD 2
  { runDate := ⟨d, 12, 0, 0, zone⟩
    submissionDate := deadlineOf offs zone d
    timezone := tz
    timezoneAbbr := tzAbbr tz
    deadlineOffset := off }

/-- Acceptance test for a candidate day: weekday governed and deadline
strictly after `now`. -/
def okDay (g : List String) (offs : List (String × Int)) (now : LuxonDT)
    (zone : String) (d : Int) : Bool :=
  governedDay g d && gtD (some (deadlineOf offs zone d)) now

/-- The `while (count < 5)` loop of `generateNext5FromEvents`, with an
explicit step budget: `none` means the budget was exhausted with the loop
still running — the source loop has no bound of its own. -/
def genAux (g : List String) (offs : List (String × Int)) (tz : String)
    (now : LuxonDT) : Nat → LuxonDT → Nat → List Occ → Option (List Occ)
  | 0, _, _, _ => none
  | fuel + 1, cur, count, acc =>
    if 5 ≤ count then some acc.reverse
    else
      match cur with
      | none => genAux g offs tz now fuel none count acc
      | some c =>
        if governedDay g c.day then
          if gtD (some (deadlineOf offs c.zone c.day)) now then
            genAux g offs tz now fuel (some { c with day := c.day + 1 }) (count + 1)
              (mkOcc offs tz c.zone c.day :: acc)
          else genAux g offs tz now fuel (some { c with day := c.day + 1 }) count acc
        else genAux g offs tz now fuel (some { c with day := c.day + 1 }) count acc

/-- The loop cursor's start: `max(now.startOf('day'), eventStart.startOf('day'))`
in the first event's timezone. -/
def startCursor (events : List PEvent) (nowInstant : Int) : LuxonDT :=
  match events with
  | [] => none
  | e0 :: _ =>
    maxD (startOfDayD (fromInstant nowInstant e0.startTZ))
      (startOfDayD (setZoneD e0.startDT e0.startTZ))

/-- `generateNext5FromEvents`.  `nowInstant` is the ambient clock
(`DateTime.now()`), `fuel` the explicit step budget for the unbounded
source loop.  The call site guarantees a nonempty event list (the empty
case, which would throw in JS, is mapped to `none`). -/
def generateNext5FromEvents (events : List PEvent) (nowInstant : Int) (fuel : Nat) :
    Option (List Occ) :=
  match events with
  | [] => none
  | e0 :: _ =>
    let gd := collectRule events
    genAux gd.1 gd.2 e0.startTZ (fromInstant nowInstant e0.startTZ) fuel
      (startCursor events nowInstant) 0 []

/-- Consecutive day numbers starting at `d` — the loop's walk. -/
def dayList (d : Int) : Nat → List Int
  | 0 => []
  | n + 1 => d :: dayList (d + 1) n

/-- Decidable equality of `Except` results, for evaluating the model on
concrete inputs. -/
instance {ε α : Type} [DecidableEq ε] [DecidableEq α] : DecidableEq (Except ε α)
  | .ok a, .ok b =>
    if h : a = b then .isTrue (by rw [h]) else .isFalse (fun hc => h (by injection hc))
  | .ok _, .error _ => .isFalse (fun hc => Except.noConfusion hc)
  | .error _, .ok _ => .isFalse (fun hc => Except.noConfusion hc)
  | .error e, .error f =>
    if h : e = f then .isTrue (by rw [h]) else .isFalse (fun hc => h (by injection hc))

/-! ### Arithmetic facts about the datetime model -/

theorem wallSecs_fromWallSecs (t : Int) (zone : String) :
    wallSecs (fromWallSecs t zone) = t := by
  unfold wallSecs fromWallSecs
  dsimp only
  omega

theorem zone_fromWallSecs (t : Int) (zone : String) :
    (fromWallSecs t zone).zone = zone := rfl

theorem instant_plusSecsZ (z : ZDT) (d : Int) :
    instant (plusSecsZ z d) = instant z + d := by
  unfold plusSecsZ instant
  rw [wallSecs_fromWallSecs, zone_fromWallSecs]
  ring

/-! ### C2 — stale-date advancement -/

/-- C2 counterexample: the claim says the advanced start date is the
nearest date with the original start's weekday that is greater than or
equal to today.  At a concrete input where today (day 4, a Monday) has the
same weekday as the stale start (day −3, also a Monday), `processEvent`
advances to day 11 — a full week later — although today itself is a
matching calendar date ≥ today, so the claim fails. -/
theorem c2_not_nearest_geq_today :
    (advancePair ⟨4, 0, 0, 0, "America/New_York"⟩ ⟨-3, 10, 0, 0, "America/New_York"⟩
        (some ⟨-3, 11, 0, 0, "America/New_York"⟩)).1.day = 11 ∧
    weekdayOfDay 4 = weekdayOfDay (-3) ∧ (-3 : Int) < 4 ∧ ¬ (11 : Int) ≤ 4 := by
  decide

/-- C2 (amended): for a recurring record whose start day is strictly before
today in the record's own timezone, the guard of `processEvent` fires, and
the advanced start has the original start's weekday, is the nearest such
calendar date strictly after today (one week out when today's weekday
already matches), preserves the time of day, and the advanced end keeps the
original end-minus-start duration. -/
theorem c2_advance_next_strict_weekday
    (todayDay : Int) (z : String) (s e : ZDT)
    (hz : s.zone = z)
    (hh : 0 ≤ s.h) (hh24 : s.h < 24) (hmi : 0 ≤ s.mi) (hmi60 : s.mi < 60)
    (hs : 0 ≤ s.s) (hs60 : s.s < 60) (hpast : s.day < todayDay) :
    ltD (some s) (some ⟨todayDay, 0, 0, 0, z⟩) = true ∧
    weekdayOfDay ((advancePair ⟨todayDay, 0, 0, 0, z⟩ s (some e)).1.day) =
      weekdayOfDay s.day ∧
    todayDay < (advancePair ⟨todayDay, 0, 0, 0, z⟩ s (some e)).1.day ∧
    (advancePair ⟨todayDay, 0, 0, 0, z⟩ s (some e)).1.day ≤ todayDay + 7 ∧
    (∀ d : Int, todayDay < d → d < (advancePair ⟨todayDay, 0, 0, 0, z⟩ s (some e)).1.day →
      weekdayOfDay d ≠ weekdayOfDay s.day) ∧
    (advancePair ⟨todayDay, 0, 0, 0, z⟩ s (some e)).1.h = s.h ∧
    (advancePair ⟨todayDay, 0, 0, 0, z⟩ s (some e)).1.mi = s.mi ∧
    (advancePair ⟨todayDay, 0, 0, 0, z⟩ s (some e)).1.s = s.s ∧
    ∀ e', (advancePair ⟨todayDay, 0, 0, 0, z⟩ s (some e)).2 = some e' →
      instant e' - instant (advancePair ⟨todayDay, 0, 0, 0, z⟩ s (some e)).1 =
        instant e - instant s := by
  have hday : (advancePair ⟨todayDay, 0, 0, 0, z⟩ s (some e)).1.day =
      todayDay + (if ((weekdayOfDay s.day - weekdayOfDay todayDay + 7) % 7) = 0 then 7
        else (weekdayOfDay s.day - weekdayOfDay todayDay + 7) % 7) := rfl
  have hgh : (advancePair ⟨todayDay, 0, 0, 0, z⟩ s (some e)).1.h = s.h := rfl
  have hgm : (advancePair ⟨todayDay, 0, 0, 0, z⟩ s (some e)).1.mi = s.mi := rfl
  have hgs : (advancePair ⟨todayDay, 0, 0, 0, z⟩ s (some e)).1.s = s.s := rfl
  have hsnd : (advancePair ⟨todayDay, 0, 0, 0, z⟩ s (some e)).2 =
      some (plusSecsZ (advancePair ⟨todayDay, 0, 0, 0, z⟩ s (some e)).1
        (instant e - instant s)) := rfl
  refine ⟨?_, ?_, ?_, ?_, ?_, hgh, hgm, hgs, ?_⟩
  · simp only [ltD, decide_eq_true_eq, instant, wallSecs, hz]
    omega
  · rw [hday]
    simp only [weekdayOfDay]
    by_cases h0 : ((s.day + 3) % 7 + 1 - ((todayDay + 3) % 7 + 1) + 7) % 7 = 0
    · rw [if_pos h0]; omega
    · rw [if_neg h0]; omega
  · rw [hday]
    simp only [weekdayOfDay]
    by_cases h0 : ((s.day + 3) % 7 + 1 - ((todayDay + 3) % 7 + 1) + 7) % 7 = 0
    · rw [if_pos h0]; omega
    · rw [if_neg h0]; omega
  · rw [hday]
    simp only [weekdayOfDay]
    by_cases h0 : ((s.day + 3) % 7 + 1 - ((todayDay + 3) % 7 + 1) + 7) % 7 = 0
    · rw [if_pos h0]
    · rw [if_neg h0]; omega
  · intro d hd1 hd2
    rw [hday] at hd2
    simp only [weekdayOfDay] at hd2 ⊢
    by_cases h0 : ((s.day + 3) % 7 + 1 - ((todayDay + 3) % 7 + 1) + 7) % 7 = 0
    · rw [if_pos h0] at hd2; omega
    · rw [if_neg h0] at hd2; omega
  · intro e' he'
    rw [hsnd] at he'
    injection he' with he''
    rw [← he'', instant_plusSecsZ]
    ring

/-- Any valid datetime produced by `fromObjectD` carries the zone it was
given. -/
theorem fromObjectD_zone {y m d h mi s : Option Int} {zone : String} {dt : ZDT}
    (hp : fromObjectD y m d h mi s zone = some dt) : dt.zone = zone := by
  unfold fromObjectD at hp
  simp only [Option.bind_eq_some] at hp
  obtain ⟨a1, e1, a2, e2, a3, e3, a4, e4, a5, e5, a6, e6, hp⟩ := hp
  split at hp
  · injection hp with h1
    rw [← h1]
  · exact absurd hp (by simp)

/-- C2 witness: the amended statement at a concrete input (stale Monday
start, today a Wednesday): the advanced start keeps the Monday weekday,
lies strictly after today, and no intermediate day (day 8 for instance)
matches. -/
theorem c2_advance_witness :
    weekdayOfDay ((advancePair ⟨6, 0, 0, 0, "America/New_York"⟩
        ⟨-3, 10, 0, 0, "America/New_York"⟩
        (some ⟨-3, 11, 0, 0, "America/New_York"⟩)).1.day) = weekdayOfDay (-3) ∧
    (6 : Int) < (advancePair ⟨6, 0, 0, 0, "America/New_York"⟩
        ⟨-3, 10, 0, 0, "America/New_York"⟩
        (some ⟨-3, 11, 0, 0, "America/New_York"⟩)).1.day ∧
    weekdayOfDay 8 ≠ weekdayOfDay (-3) := by
  have h := c2_advance_next_strict_weekday 6 "America/New_York"
    ⟨-3, 10, 0, 0, "America/New_York"⟩ ⟨-3, 11, 0, 0, "America/New_York"⟩
    rfl (by decide) (by decide) (by decide) (by decide) (by decide) (by decide) (by decide)
  exact ⟨h.2.1, h.2.2.1, h.2.2.2.2.1 8 (by decide) (by decide)⟩

/-! ### C4 — timezone precedence of parsed DTSTART/DTEND values -/

/-- C4 counterexample: on the line
`DTSTART;TZID=America/Chicago:20250101T120000Z` the TZID parameter is
extracted, yet `parseIcsDate` parses the value in UTC because of the
trailing Z, so a present TZID is not authoritative as the claim states. -/
theorem c4_tzid_overridden_by_z :
    extractTimezone "DTSTART;TZID=America/Chicago:20250101T120000Z" = "America/Chicago" ∧
    parseIcsDate "20250101T120000Z"
        (some (extractTimezone "DTSTART;TZID=America/Chicago:20250101T120000Z")) =
      some ⟨20089, 12, 0, 0, "UTC"⟩ ∧
    "UTC" ≠ "America/Chicago" := by
  decide

/-- C4 (amended): zone precedence of the parsed timestamp — a date-time
value (not the 8-digit form) with a trailing literal Z parses as UTC even
when a TZID zone was extracted; otherwise the extracted zone parameter is
used; and when the property line carries no TZID at all, a trailing Z on
the line means UTC and absence of both means the default
America/New_York. -/
theorem c4_zone_precedence :
    (∀ (value tz : String) (dt : ZDT),
      parseIcsDate value (some tz) = some dt →
      dt.zone = if endsWithC 'Z' value.data ∧ value.data.contains 'T' ∧
          value.data.length ≠ 8 then "UTC" else tz) ∧
    (∀ line : String, containsSub ("TZID=".data) line.data = false →
      extractTimezone line =
        if endsWithC 'Z' line.data then "UTC" else "America/New_York") := by
  constructor
  · intro value tz dt h
    unfold parseIcsDate at h
    dsimp only at h
    by_cases h8 : value.data.length = 8
    · rw [if_pos h8] at h
      have hz := fromObjectD_zone h
      have hnc : ¬(endsWithC 'Z' value.data = true ∧ value.data.contains 'T' = true ∧
          value.data.length ≠ 8) := by simp [h8]
      rw [if_neg hnc, hz]
    · rw [if_neg h8] at h
      by_cases hT : value.data.contains 'T'
      · rw [if_pos hT] at h
        have hz := fromObjectD_zone h
        by_cases hZ : endsWithC 'Z' value.data
        · rw [if_pos ⟨hZ, hT, h8⟩, hz, if_pos hZ]
        · have hnc : ¬(endsWithC 'Z' value.data = true ∧ value.data.contains 'T' = true ∧
              value.data.length ≠ 8) := by simp [hZ]
          rw [if_neg hnc, hz, if_neg hZ]
      · rw [if_neg hT] at h
        exact absurd h (by simp)
  · intro line hniq
    unfold extractTimezone
    rw [if_neg (by simp [hniq])]

/-- C4 witness: the amended precedence applied at a date-time value with no
trailing Z (the TZID zone survives) and at a TZID-free line with a trailing
Z (UTC). -/
theorem c4_zone_precedence_witness :
    ((⟨20089, 12, 0, 0, "America/Chicago"⟩ : ZDT).zone =
      if endsWithC 'Z' ("20250101T120000".data) ∧ ("20250101T120000".data).contains 'T' ∧
          ("20250101T120000".data).length ≠ 8 then "UTC" else "America/Chicago") ∧
    extractTimezone "DTSTART:20250101T120000Z" =
      (if endsWithC 'Z' ("DTSTART:20250101T120000Z".data) then "UTC"
        else "America/New_York") := by
  refine ⟨c4_zone_precedence.1 "20250101T120000" "America/Chicago"
      ⟨20089, 12, 0, 0, "America/Chicago"⟩ (by decide),
    c4_zone_precedence.2 "DTSTART:20250101T120000Z" (by decide)⟩

/-! ### Properties of the dedup map -/

theorem hasKey_append (m₁ m₂ : EvMap) (k : EvKey) :
    hasKey (m₁ ++ m₂) k = (hasKey m₁ k || hasKey m₂ k) := by
  simp [hasKey, List.any_append]

theorem hasKey_single (kv : EvKey × PEvent) (k : EvKey) :
    hasKey [kv] k = true ↔ k = kv.1 := by
  simp only [hasKey, List.any_cons, List.any_nil, Bool.or_false, beq_iff_eq]
  exact eq_comm

theorem hasKey_insertIfAbsent (m : EvMap) (kv : EvKey × PEvent) (k : EvKey) :
    hasKey (insertIfAbsent m kv) k = true ↔ (hasKey m k = true ∨ k = kv.1) := by
  unfold insertIfAbsent
  split
  · rename_i hin
    constructor
    · exact fun h => Or.inl h
    · rintro (h | rfl)
      · exact h
      · exact hin
  · rw [hasKey_append, Bool.or_eq_true, hasKey_single]

theorem hasKey_insertEntries (m : EvMap) (es : List (EvKey × PEvent)) (k : EvKey) :
    hasKey (insertEntries m es) k = true ↔
      (hasKey m k = true ∨ k ∈ es.map Prod.fst) := by
  induction es generalizing m with
  | nil => simp [insertEntries]
  | cons kv rest ih =>
    show hasKey (insertEntries (insertIfAbsent m kv) rest) k = true ↔ _
    rw [ih, hasKey_insertIfAbsent]
    simp [or_assoc]

theorem insertEntries_id (m : EvMap) (es : List (EvKey × PEvent))
    (h : ∀ k ∈ es.map Prod.fst, hasKey m k = true) : insertEntries m es = m := by
  induction es with
  | nil => rfl
  | cons kv rest ih =>
    have hk : hasKey m kv.1 = true := h kv.1 (by simp)
    have h1 : insertIfAbsent m kv = m := by
      unfold insertIfAbsent
      rw [if_pos hk]
    show insertEntries (insertIfAbsent m kv) rest = m
    rw [h1]
    exact ih (fun k hk' => h k (by simp [hk']))

theorem insertEntries_fresh (m : EvMap) (es : List (EvKey × PEvent))
    (hfresh : ∀ k ∈ es.map Prod.fst, hasKey m k = false)
    (hnd : (es.map Prod.fst).Nodup) : insertEntries m es = m ++ es := by
  induction es generalizing m with
  | nil => simp [insertEntries]
  | cons kv rest ih =>
    have hk : hasKey m kv.1 = false := hfresh kv.1 (by simp)
    have h1 : insertIfAbsent m kv = m ++ [kv] := by
      unfold insertIfAbsent
      rw [if_neg (by simp [hk])]
    have hfresh' : ∀ k ∈ rest.map Prod.fst, hasKey (m ++ [kv]) k = false := by
      intro k hkr
      rw [hasKey_append]
      have h2 : hasKey m k = false := hfresh k (by simp [hkr])
      have h3 : k ≠ kv.1 := by
        simp only [List.map_cons, List.nodup_cons] at hnd
        rintro rfl
        exact hnd.1 hkr
      have h4 : hasKey [kv] k = false := by
        simp only [hasKey, List.any_cons, List.any_nil, Bool.or_false]
        exact beq_eq_false_iff_ne.mpr (fun h => h3 h.symm)
      rw [h2, h4]
      rfl
    have hnd' : (rest.map Prod.fst).Nodup := by
      simp only [List.map_cons, List.nodup_cons] at hnd
      exact hnd.2
    show insertEntries (insertIfAbsent m kv) rest = m ++ kv :: rest
    rw [h1, ih (m ++ [kv]) hfresh' hnd']
    simp

/-! ### Behaviour of the resolver fold -/

theorem resolveList_nil (rm : List (String × String)) (today : LuxonDT)
    (dsn sid : String) (m : EvMap) :
    resolveList rm today dsn sid m [] = .ok m := rfl

theorem resolveList_cons (rm : List (String × String)) (today : LuxonDT)
    (dsn sid : String) (m : EvMap) (c : CurEvent) (cs : List CurEvent) :
    resolveList rm today dsn sid m (c :: cs) =
      (match resolveRecord rm today dsn sid m c with
        | .ok m' => resolveList rm today dsn sid m' cs
        | .error e => .error e) := rfl

theorem resolveList_append (rm : List (String × String)) (today : LuxonDT)
    (dsn sid : String) (m : EvMap) (xs ys : List CurEvent) :
    resolveList rm today dsn sid m (xs ++ ys) =
      (match resolveList rm today dsn sid m xs with
        | .ok m' => resolveList rm today dsn sid m' ys
        | .error e => .error e) := by
  induction xs generalizing m with
  | nil => rw [List.nil_append, resolveList_nil]
  | cons c cs ih =>
    rw [List.cons_append, resolveList_cons, resolveList_cons]
    cases hrec : resolveRecord rm today dsn sid m c with
    | ok m' => exact ih m'
    | error e => rfl

theorem resolveRecord_ok_elim (rm : List (String × String)) (today : LuxonDT)
    (dsn sid : String) (m m' : EvMap) (cur : CurEvent)
    (h : resolveRecord rm today dsn sid m cur = .ok m') :
    ∃ E, recordEntries rm today dsn sid cur = .ok E ∧ m' = insertEntries m E := by
  unfold resolveRecord at h
  cases hE : recordEntries rm today dsn sid cur with
  | ok E =>
    rw [hE] at h
    injection h with h1
    exact ⟨E, rfl, h1.symm⟩
  | error e =>
    rw [hE] at h
    exact absurd h (by simp [Except.map])

/-- Processing a record whose keys are all already present leaves the map
unchanged. -/
theorem resolveRecord_noop (rm : List (String × String)) (today : LuxonDT)
    (dsn sid : String) (M : EvMap) (cur : CurEvent) (E : List (EvKey × PEvent))
    (hE : recordEntries rm today dsn sid cur = .ok E)
    (hcov : ∀ k ∈ E.map Prod.fst, hasKey M k = true) :
    resolveRecord rm today dsn sid M cur = .ok M := by
  unfold resolveRecord
  rw [hE]
  show Except.ok (insertEntries M E) = Except.ok M
  rw [insertEntries_id M E hcov]

/-- A successful resolver fold only grows the key set, and ends with every
processed record's keys present. -/
theorem resolveList_covered (rm : List (String × String)) (today : LuxonDT)
    (dsn sid : String) (xs : List CurEvent) :
    ∀ m M, resolveList rm today dsn sid m xs = .ok M →
      (∀ k, hasKey m k = true → hasKey M k = true) ∧
      (∀ c ∈ xs, ∃ E, recordEntries rm today dsn sid c = .ok E ∧
        ∀ k ∈ E.map Prod.fst, hasKey M k = true) := by
  induction xs with
  | nil =>
    intro m M h
    injection h with h1
    subst h1
    exact ⟨fun k hk => hk, by simp⟩
  | cons c cs ih =>
    intro m M h
    have hstep : ∃ m₁, resolveRecord rm today dsn sid m c = .ok m₁ ∧
        resolveList rm today dsn sid m₁ cs = .ok M := by
      revert h
      rw [resolveList_cons]
      cases hrec : resolveRecord rm today dsn sid m c with
      | ok m₁ => exact fun h => ⟨m₁, rfl, h⟩
      | error e => exact fun h => absurd h (by simp)
    obtain ⟨m₁, hrec, hrest⟩ := hstep
    obtain ⟨E, hE, hins⟩ := resolveRecord_ok_elim rm today dsn sid m m₁ c hrec
    obtain ⟨hmono, hall⟩ := ih m₁ M hrest
    refine ⟨?_, ?_⟩
    · intro k hk
      apply hmono
      rw [hins]
      exact (hasKey_insertEntries m E k).mpr (Or.inl hk)
    · intro c' hc'
      rcases List.mem_cons.mp hc' with rfl | hc'
      · refine ⟨E, hE, fun k hk => ?_⟩
        apply hmono
        rw [hins]
        exact (hasKey_insertEntries m E k).mpr (Or.inr hk)
      · exact hall c' hc'

/-- Re-running the resolver fold over records whose keys are already all in
the map is the identity. -/
theorem resolveList_noop (rm : List (String × String)) (today : LuxonDT)
    (dsn sid : String) (xs : List CurEvent) :
    ∀ M, (∀ c ∈ xs, ∃ E, recordEntries rm today dsn sid c = .ok E ∧
        ∀ k ∈ E.map Prod.fst, hasKey M k = true) →
      resolveList rm today dsn sid M xs = .ok M := by
  induction xs with
  | nil => intro M _; rfl
  | cons c cs ih =>
    intro M hall
    obtain ⟨E, hE, hcov⟩ := hall c (by simp)
    have h1 := resolveRecord_noop rm today dsn sid M c E hE hcov
    rw [resolveList_cons, h1]
    exact ih M (fun c' hc' => hall c' (by simp [hc']))

/-! ### C7 — dedup keys ignore the summary; first write wins; idempotence -/

/-- The dedup keys computed for a record do not depend on its summary text
(the summary only enters the stored value). -/
theorem processEntries_summary_keys (cur : CurEvent) (s2 : Option String)
    (rawRrule : Option String) (isRec : Bool) (today : LuxonDT) (dsn sid : String) :
    (processEntries { cur with summary := s2 } rawRrule isRec today dsn sid).map
        (List.map Prod.fst) =
      (processEntries cur rawRrule isRec today dsn sid).map (List.map Prod.fst) := by
  unfold processEntries
  dsimp only
  cases hsd : cur.startDate with
  | none => rfl
  | some sd0 =>
    cases isRec <;>
      simp [Except.map, List.map_map, advancedPairOf, hsd, Function.comp,
        recEntriesOf, oneTimeEntryOf]

/-- Key lists of `recordEntries` are likewise independent of the summary,
for records that carry a summary (so that the block is nonempty either
way). -/
theorem recordEntries_summary_keys (rm : List (String × String)) (today : LuxonDT)
    (dsn sid : String) (r : CurEvent) (s2 : Option String)
    (hs : r.summary.isSome) (hs2 : s2.isSome) :
    (recordEntries rm today dsn sid { r with summary := s2 }).map (List.map Prod.fst) =
      (recordEntries rm today dsn sid r).map (List.map Prod.fst) := by
  unfold recordEntries
  dsimp only
  have he2 : emptyEvent { r with summary := s2 } = false := by
    unfold emptyEvent
    dsimp only
    rcases s2 with _ | v
    · exact absurd hs2 (by simp)
    · simp
  have he1 : emptyEvent r = false := by
    unfold emptyEvent
    rcases hsv : r.summary with _ | v
    · rw [hsv] at hs
      exact absurd hs (by simp)
    · simp [hsv]
  rw [he1, he2]
  simp only [Bool.false_eq_true, if_false]
  split
  · split
    · rfl
    · exact processEntries_summary_keys r s2 _ _ today dsn sid
  · exact processEntries_summary_keys r s2 _ _ today dsn sid

/-- C7: resolution is idempotent and first-write-wins.  Re-processing the
same record list a second time leaves the resolved map unchanged, and a
later record differing from an earlier one only in its summary text (hence
mapping to the same dedup key) is dropped silently: only the first record's
ResolvedEvent is retained. -/
theorem c7_dedup_first_write_idempotent (rm : List (String × String)) (today : LuxonDT)
    (dsn sid : String) :
    (∀ xs : List CurEvent,
      resolveList rm today dsn sid [] (xs ++ xs) = resolveList rm today dsn sid [] xs) ∧
    (∀ (r : CurEvent) (s2 : Option String), r.summary.isSome → s2.isSome →
      resolveList rm today dsn sid [] [r, { r with summary := s2 }] =
        resolveList rm today dsn sid [] [r]) := by
  constructor
  · intro xs
    rw [resolveList_append]
    cases hres : resolveList rm today dsn sid [] xs with
    | ok M =>
      have hcov := (resolveList_covered rm today dsn sid xs [] M hres).2
      exact resolveList_noop rm today dsn sid xs M hcov
    | error e => rfl
  · intro r s2 hs hs2
    cases hE : recordEntries rm today dsn sid r with
    | error e =>
      have h1 : resolveRecord rm today dsn sid [] r = .error e := by
        unfold resolveRecord
        rw [hE]
        rfl
      simp only [resolveList_cons, h1]
    | ok E =>
      have h1 : resolveRecord rm today dsn sid [] r = .ok (insertEntries [] E) := by
        unfold resolveRecord
        rw [hE]
        rfl
      have hkeys := recordEntries_summary_keys rm today dsn sid r s2 hs hs2
      rw [hE] at hkeys
      cases hE2 : recordEntries rm today dsn sid { r with summary := s2 } with
      | error e2 =>
        rw [hE2] at hkeys
        exact absurd hkeys (by simp [Except.map])
      | ok E2 =>
        rw [hE2] at hkeys
        have hk2 : E2.map Prod.fst = E.map Prod.fst := by
          simpa [Except.map] using hkeys
        have hnoop : resolveRecord rm today dsn sid (insertEntries [] E)
            { r with summary := s2 } = .ok (insertEntries [] E) := by
          apply resolveRecord_noop rm today dsn sid _ _ E2 hE2
          intro k hk
          rw [hk2] at hk
          exact (hasKey_insertEntries [] E k).mpr (Or.inr hk)
        simp only [resolveList_cons, resolveList_nil, h1, hnoop]

/-- C7 witness: idempotence and the duplicate-summary scenario at a
concrete recurring record. -/
theorem c7_dedup_witness :
    (resolveList [] (some ⟨20367, 0, 0, 0, "America/New_York"⟩) "Src" "sess" []
        ([{ summary := some "A", uid := some "u1",
            rrule := some "FREQ=WEEKLY;BYDAY=MO",
            startDate := some (some ⟨20374, 10, 0, 0, "America/New_York"⟩),
            startTimezone := some "America/New_York" }] ++
         [{ summary := some "A", uid := some "u1",
            rrule := some "FREQ=WEEKLY;BYDAY=MO",
            startDate := some (some ⟨20374, 10, 0, 0, "America/New_York"⟩),
            startTimezone := some "America/New_York" }]) =
      resolveList [] (some ⟨20367, 0, 0, 0, "America/New_York"⟩) "Src" "sess" []
        [{ summary := some "A", uid := some "u1",
           rrule := some "FREQ=WEEKLY;BYDAY=MO",
           startDate := some (some ⟨20374, 10, 0, 0, "America/New_York"⟩),
           startTimezone := some "America/New_York" }]) ∧
    (resolveList [("u1", "FREQ=WEEKLY;BYDAY=MO")]
        (some ⟨20367, 0, 0, 0, "America/New_York"⟩) "Src" "sess" []
        [{ summary := some "first", uid := some "u1",
           startDate := some (some ⟨20374, 10, 0, 0, "America/New_York"⟩),
           startTimezone := some "America/New_York" },
         { summary := some "second", uid := some "u1",
           startDate := some (some ⟨20374, 10, 0, 0, "America/New_York"⟩),
           startTimezone := some "America/New_York" }] =
      resolveList [("u1", "FREQ=WEEKLY;BYDAY=MO")]
        (some ⟨20367, 0, 0, 0, "America/New_York"⟩) "Src" "sess" []
        [{ summary := some "first", uid := some "u1",
           startDate := some (some ⟨20374, 10, 0, 0, "America/New_York"⟩),
           startTimezone := some "America/New_York" }]) := by
  constructor
  · exact (c7_dedup_first_write_idempotent [] (some ⟨20367, 0, 0, 0, "America/New_York"⟩)
      "Src" "sess").1 _
  · exact (c7_dedup_first_write_idempotent [("u1", "FREQ=WEEKLY;BYDAY=MO")]
      (some ⟨20367, 0, 0, 0, "America/New_York"⟩) "Src" "sess").2
      { summary := some "first", uid := some "u1",
        startDate := some (some ⟨20374, 10, 0, 0, "America/New_York"⟩),
        startTimezone := some "America/New_York" } (some "second") (by simp) (by simp)

/-! ### C8 and C10 — deadline-offset rules -/

/-- Every entry `processEvent` inserts carries deadline offset
`cur.deadlineOffset` when present and 2 otherwise. -/
theorem processEntries_offset (cur : CurEvent) (rawRrule : Option String) (isRec : Bool)
    (today : LuxonDT) (dsn sid : String) (E : List (EvKey × PEvent))
    (h : processEntries cur rawRrule isRec today dsn sid = .ok E) :
    ∀ kv ∈ E, kv.2.deadlineOffset = some (cur.deadlineOffset.getD 2) := by
  unfold processEntries at h
  cases hsd : cur.startDate with
  | none =>
    rw [hsd] at h
    exact absurd h (by simp)
  | some sd0 =>
    rw [hsd] at h
    dsimp only at h
    cases isRec with
    | true =>
      rw [if_pos rfl] at h
      injection h with hE
      intro kv hkv
      rw [← hE] at hkv
      simp only [recEntriesOf, List.mem_map] at hkv
      obtain ⟨d, -, rfl⟩ := hkv
      rfl
    | false =>
      rw [if_neg (by simp)] at h
      injection h with hE
      intro kv hkv
      rw [← hE] at hkv
      simp only [List.mem_singleton] at hkv
      subst hkv
      rfl

/-- The same offset rule lifted through the END:VEVENT handling. -/
theorem recordEntries_offset (rm : List (String × String)) (today : LuxonDT)
    (dsn sid : String) (cur : CurEvent) (E : List (EvKey × PEvent))
    (h : recordEntries rm today dsn sid cur = .ok E) :
    ∀ kv ∈ E, kv.2.deadlineOffset = some (cur.deadlineOffset.getD 2) := by
  unfold recordEntries at h
  split at h
  · injection h with hE
    intro kv hkv
    rw [← hE] at hkv
    exact absurd hkv (by simp)
  · dsimp only at h
    split at h
    · split at h
      · injection h with hE
        intro kv hkv
        rw [← hE] at hkv
        exact absurd hkv (by simp)
      · exact processEntries_offset _ _ _ _ _ _ _ h
    · exact processEntries_offset _ _ _ _ _ _ _ h

/-- C8: the deadline-offset defaulting rules.  A record with no
X-PUB-DEADLINE-OFFSET property resolves to offset 2; a record whose parsed
offset is an explicit 0 resolves to offset 0 (honoured, distinct from the
absent case); the parser stores an explicit 0 for the property value "0";
and the projector's per-weekday lookup falls back to 2 only when the lookup
misses, while an explicit per-weekday 0 yields a same-day deadline. -/
theorem c8_offset_default_rules :
    (∀ (cur : CurEvent) (line : String),
      (applyProp cur line "X-PUB-DEADLINE-OFFSET" "0").deadlineOffset = some 0) ∧
    (∀ (rm : List (String × String)) (today : LuxonDT) (dsn sid : String)
        (cur : CurEvent) (E : List (EvKey × PEvent)),
      cur.deadlineOffset = none →
      recordEntries rm today dsn sid cur = .ok E →
      ∀ kv ∈ E, kv.2.deadlineOffset = some 2) ∧
    (∀ (rm : List (String × String)) (today : LuxonDT) (dsn sid : String)
        (cur : CurEvent) (E : List (EvKey × PEvent)),
      cur.deadlineOffset = some 0 →
      recordEntries rm today dsn sid cur = .ok E →
      ∀ kv ∈ E, kv.2.deadlineOffset = some 0) ∧
    (∀ (offs : List (String × Int)) (tz zone : String) (d : Int),
      ((abbrOfWeekday (weekdayOfDay d)).bind fun a => mapGet offs a) = none →
      (mkOcc offs tz zone d).deadlineOffset = 2) ∧
    (∀ (offs : List (String × Int)) (tz zone : String) (d : Int),
      ((abbrOfWeekday (weekdayOfDay d)).bind fun a => mapGet offs a) = some 0 →
      (mkOcc offs tz zone d).deadlineOffset = 0 ∧
        (mkOcc offs tz zone d).submissionDate.day = (mkOcc offs tz zone d).runDate.day) := by
  refine ⟨?_, ?_, ?_, ?_, ?_⟩
  · intro cur line
    rfl
  · intro rm today dsn sid cur E hoff hE kv hkv
    have h2 := recordEntries_offset rm today dsn sid cur E hE kv hkv
    rw [hoff] at h2
    exact h2
  · intro rm today dsn sid cur E hoff hE kv hkv
    have h2 := recordEntries_offset rm today dsn sid cur E hE kv hkv
    rw [hoff] at h2
    exact h2
  · intro offs tz zone d h
    show (((abbrOfWeekday (weekdayOfDay d)).bind fun a => mapGet offs a).getD 2) = 2
    rw [h]
    rfl
  · intro offs tz zone d h
    refine ⟨?_, ?_⟩
    · show (((abbrOfWeekday (weekdayOfDay d)).bind fun a => mapGet offs a).getD 2) = 0
      rw [h]
      rfl
    · show (d - ((abbrOfWeekday (weekdayOfDay d)).bind fun a => mapGet offs a).getD 2) = d
      rw [h]
      show d - (0 : Int) = d
      omega

/-- C8 witness: the rules at concrete inputs — a record without the custom
property resolves with offset 2; the same record with an explicit parsed 0
resolves with offset 0; the parser maps value "0" to an explicit 0; and the
projector's per-day rule at a missing and at an explicit-zero entry. -/
theorem c8_offset_witness :
    (applyProp {} "X-PUB-DEADLINE-OFFSET:0" "X-PUB-DEADLINE-OFFSET" "0").deadlineOffset =
      some 0 ∧
    ({ summary := "A",
       description := "\n\nSource: Src\noriginalUuid: u\nsessionId: sess",
       startDT := some ⟨20374, 10, 0, 0, "America/New_York"⟩,
       startTZ := "America/New_York",
       endDT := some ⟨20374, 10, 0, 0, "America/New_York"⟩,
       endTZ := "America/New_York",
       recurrence := some "RRULE:FREQ=WEEKLY;BYDAY=MO",
       source := "Src", originalUid := some "u", sessionId := "sess",
       isRecurring := true, deadlineOffset := some 2 } : PEvent).deadlineOffset =
      some 2 ∧
    ({ summary := "A",
       description := "\n\nSource: Src\noriginalUuid: u\nsessionId: sess",
       startDT := some ⟨20374, 10, 0, 0, "America/New_York"⟩,
       startTZ := "America/New_York",
       endDT := some ⟨20374, 10, 0, 0, "America/New_York"⟩,
       endTZ := "America/New_York",
       recurrence := some "RRULE:FREQ=WEEKLY;BYDAY=MO",
       source := "Src", originalUid := some "u", sessionId := "sess",
       isRecurring := true, deadlineOffset := some 0 } : PEvent).deadlineOffset =
      some 0 ∧
    (mkOcc [] "America/New_York" "America/New_York" 20374).deadlineOffset = 2 ∧
    ((mkOcc [("MO", 0)] "America/New_York" "America/New_York" 20374).deadlineOffset = 0 ∧
      (mkOcc [("MO", 0)] "America/New_York" "America/New_York"
          20374).submissionDate.day =
        (mkOcc [("MO", 0)] "America/New_York" "America/New_York" 20374).runDate.day) := by
  refine ⟨c8_offset_default_rules.1 {} "X-PUB-DEADLINE-OFFSET:0", ?_, ?_,
    c8_offset_default_rules.2.2.2.1 [] "America/New_York" "America/New_York" 20374
      (by decide),
    c8_offset_default_rules.2.2.2.2 [("MO", 0)] "America/New_York" "America/New_York" 20374
      (by decide)⟩
  · exact c8_offset_default_rules.2.1 [] (some ⟨20367, 0, 0, 0, "America/New_York"⟩)
      "Src" "sess"
      { summary := some "A", uid := some "u", rrule := some "FREQ=WEEKLY;BYDAY=MO",
        startDate := some (some ⟨20374, 10, 0, 0, "America/New_York"⟩),
        startTimezone := some "America/New_York" }
      [(EvKey.recur "u" 1 (some 10) (some 0),
        { summary := "A",
          description := "\n\nSource: Src\noriginalUuid: u\nsessionId: sess",
          startDT := some ⟨20374, 10, 0, 0, "America/New_York"⟩,
          startTZ := "America/New_York",
          endDT := some ⟨20374, 10, 0, 0, "America/New_York"⟩,
          endTZ := "America/New_York",
          recurrence := some "RRULE:FREQ=WEEKLY;BYDAY=MO",
          source := "Src", originalUid := some "u", sessionId := "sess",
          isRecurring := true, deadlineOffset := some 2 })]
      rfl (by decide)
      ((EvKey.recur "u" 1 (some 10) (some 0),
        { summary := "A",
          description := "\n\nSource: Src\noriginalUuid: u\nsessionId: sess",
          startDT := some ⟨20374, 10, 0, 0, "America/New_York"⟩,
          startTZ := "America/New_York",
          endDT := some ⟨20374, 10, 0, 0, "America/New_York"⟩,
          endTZ := "America/New_York",
          recurrence := some "RRULE:FREQ=WEEKLY;BYDAY=MO",
          source := "Src", originalUid := some "u", sessionId := "sess",
          isRecurring := true, deadlineOffset := some 2 }) : EvKey × PEvent)
      (by decide)
  · exact c8_offset_default_rules.2.2.1 [] (some ⟨20367, 0, 0, 0, "America/New_York"⟩)
      "Src" "sess"
      { summary := some "A", uid := some "u", rrule := some "FREQ=WEEKLY;BYDAY=MO",
        startDate := some (some ⟨20374, 10, 0, 0, "America/New_York"⟩),
        startTimezone := some "America/New_York", deadlineOffset := some 0 }
      [(EvKey.recur "u" 1 (some 10) (some 0),
        { summary := "A",
          description := "\n\nSource: Src\noriginalUuid: u\nsessionId: sess",
          startDT := some ⟨20374, 10, 0, 0, "America/New_York"⟩,
          startTZ := "America/New_York",
          endDT := some ⟨20374, 10, 0, 0, "America/New_York"⟩,
          endTZ := "America/New_York",
          recurrence := some "RRULE:FREQ=WEEKLY;BYDAY=MO",
          source := "Src", originalUid := some "u", sessionId := "sess",
          isRecurring := true, deadlineOffset := some 0 })]
      rfl (by decide)
      ((EvKey.recur "u" 1 (some 10) (some 0),
        { summary := "A",
          description := "\n\nSource: Src\noriginalUuid: u\nsessionId: sess",
          startDT := some ⟨20374, 10, 0, 0, "America/New_York"⟩,
          startTZ := "America/New_York",
          endDT := some ⟨20374, 10, 0, 0, "America/New_York"⟩,
          endTZ := "America/New_York",
          recurrence := some "RRULE:FREQ=WEEKLY;BYDAY=MO",
          source := "Src", originalUid := some "u", sessionId := "sess",
          isRecurring := true, deadlineOffset := some 0 }) : EvKey × PEvent)
      (by decide)

/-- C10: an X-PUB-DEADLINE-OFFSET value that does not parse as an integer
is stored as an explicit offset 0 (`parseInt(value) || 0`), not treated as
absent, so the resolved events carry a same-day offset 0 instead of the
default 2. -/
theorem c10_nonnumeric_offset_zero :
    ∀ (cur : CurEvent) (line v : String), jsParseInt v.data = none →
      (applyProp cur line "X-PUB-DEADLINE-OFFSET" v).deadlineOffset = some 0 ∧
      ∀ (rm : List (String × String)) (today : LuxonDT) (dsn sid : String)
          (E : List (EvKey × PEvent)),
        recordEntries rm today dsn sid (applyProp cur line "X-PUB-DEADLINE-OFFSET" v) =
          .ok E →
        ∀ kv ∈ E, kv.2.deadlineOffset = some 0 := by
  intro cur line v hv
  have h1 : (applyProp cur line "X-PUB-DEADLINE-OFFSET" v).deadlineOffset = some 0 := by
    show some ((jsParseInt v.data).getD 0) = some 0
    rw [hv]
    rfl
  refine ⟨h1, ?_⟩
  intro rm today dsn sid E hE kv hkv
  have h2 := recordEntries_offset rm today dsn sid _ E hE kv hkv
  rw [h1] at h2
  exact h2

/-- C10 witness: the non-numeric value "abc" yields a stored offset 0 and
a resolved event with offset 0. -/
theorem c10_witness :
    (applyProp
        { summary := some "A", uid := some "u", rrule := some "FREQ=WEEKLY;BYDAY=MO",
          startDate := some (some ⟨20374, 10, 0, 0, "America/New_York"⟩),
          startTimezone := some "America/New_York" }
        "X-PUB-DEADLINE-OFFSET:abc" "X-PUB-DEADLINE-OFFSET" "abc").deadlineOffset =
      some 0 ∧
    ({ summary := "A",
       description := "\n\nSource: Src\noriginalUuid: u\nsessionId: sess",
       startDT := some ⟨20374, 10, 0, 0, "America/New_York"⟩,
       startTZ := "America/New_York",
       endDT := some ⟨20374, 10, 0, 0, "America/New_York"⟩,
       endTZ := "America/New_York",
       recurrence := some "RRULE:FREQ=WEEKLY;BYDAY=MO",
       source := "Src", originalUid := some "u", sessionId := "sess",
       isRecurring := true, deadlineOffset := some 0 } : PEvent).deadlineOffset =
      some 0 := by
  have h := c10_nonnumeric_offset_zero
    { summary := some "A", uid := some "u", rrule := some "FREQ=WEEKLY;BYDAY=MO",
      startDate := some (some ⟨20374, 10, 0, 0, "America/New_York"⟩),
      startTimezone := some "America/New_York" }
    "X-PUB-DEADLINE-OFFSET:abc" "abc" (by decide)
  exact ⟨h.1, h.2 [] (some ⟨20367, 0, 0, 0, "America/New_York"⟩) "Src" "sess"
    [(EvKey.recur "u" 1 (some 10) (some 0),
      { summary := "A",
          description := "\n\nSource: Src\noriginalUuid: u\nsessionId: sess",
          startDT := some ⟨20374, 10, 0, 0, "America/New_York"⟩,
          startTZ := "America/New_York",
          endDT := some ⟨20374, 10, 0, 0, "America/New_York"⟩,
          endTZ := "America/New_York",
          recurrence := some "RRULE:FREQ=WEEKLY;BYDAY=MO",
          source := "Src", originalUid := some "u", sessionId := "sess",
          isRecurring := true, deadlineOffset := some 0 })]
    (by decide)
    ((EvKey.recur "u" 1 (some 10) (some 0),
      { summary := "A",
          description := "\n\nSource: Src\noriginalUuid: u\nsessionId: sess",
          startDT := some ⟨20374, 10, 0, 0, "America/New_York"⟩,
          startTZ := "America/New_York",
          endDT := some ⟨20374, 10, 0, 0, "America/New_York"⟩,
          endTZ := "America/New_York",
          recurrence := some "RRULE:FREQ=WEEKLY;BYDAY=MO",
          source := "Src", originalUid := some "u", sessionId := "sess",
          isRecurring := true, deadlineOffset := some 0 }) : EvKey × PEvent)
    (by decide)⟩

/-! ### C6 — multi-weekday expansion -/

theorem splitOnChar_ne_nil (sep : Char) (l : List Char) : splitOnChar sep l ≠ [] := by
  cases l with
  | nil => simp [splitOnChar]
  | cons c cs =>
    unfold splitOnChar
    split
    · simp
    · split <;> simp

theorem advStart_fst_some (s : ZDT) (endD0 todayTz : LuxonDT) (b : Bool) :
    ∃ az, (advStart (some s) endD0 todayTz b).1 = some az := by
  unfold advStart
  split
  · cases todayTz with
    | some t => exact ⟨(advancePair t s endD0).1, rfl⟩
    | none => exact ⟨s, rfl⟩
  · exact ⟨s, rfl⟩

theorem advancedPairOf_fst_some (cur : CurEvent) (today : LuxonDT) (sd0 : ZDT)
    (h : cur.startDate = some (some sd0)) :
    ∃ az, (advancedPairOf cur true today).1 = some az := by
  unfold advancedPairOf
  rw [h]
  exact advStart_fst_some sd0 _ _ true

/-- The default weekday name of a valid datetime is always a recognised
`dayNames` entry. -/
theorem dayIdx_defaultDayName (az : ZDT) :
    dayIdx (defaultDayName (some az)) ≠ -1 := by
  have h1 : defaultDayName (some az) =
      dayNamesGet (if weekdayOfDay az.day = 7 then 0 else weekdayOfDay az.day) := rfl
  rw [h1]
  unfold weekdayOfDay
  have h : (az.day + 3) % 7 = 0 ∨ (az.day + 3) % 7 = 1 ∨ (az.day + 3) % 7 = 2 ∨
      (az.day + 3) % 7 = 3 ∨ (az.day + 3) % 7 = 4 ∨ (az.day + 3) % 7 = 5 ∨
      (az.day + 3) % 7 = 6 := by omega
  rcases h with h | h | h | h | h | h | h <;> rw [h] <;> decide

/-- With a governing rule carrying a `BYDAY` list, `daysInRule` is exactly
the split capture. -/
theorem daysInRuleOf_byday (r : String) (cap : List Char) (sd : LuxonDT)
    (hrne : r ≠ "") (hcap : bydayCapture r.data = some cap)
    (hbyd : containsSub ("BYDAY=".data) r.data = true) :
    daysInRuleOf (some r) sd =
      (splitOnChar ',' cap).map (fun w => some (String.mk w)) := by
  have hcond : (jsTruthyS (some r) &&
      containsSub ("BYDAY=".data) (((some r).getD "").data)) = true := by
    simp [jsTruthyS, hrne, hbyd]
  unfold daysInRuleOf
  rw [hcond, if_pos rfl]
  simp only [Option.getD_some]
  rw [hcap]
  have hne : (((splitOnChar ',' cap).map
      (fun w => some (String.mk w))).isEmpty) = false := by
    rw [List.isEmpty_eq_false_iff_exists_mem]
    obtain ⟨g, hg⟩ := List.exists_mem_of_ne_nil _ (splitOnChar_ne_nil ',' cap)
    exact ⟨some (String.mk g), List.mem_map_of_mem _ hg⟩
  rw [hne]
  rfl

/-- With no governing `BYDAY` list, `daysInRule` defaults to the start's
own weekday. -/
theorem daysInRuleOf_default (rr : Option String) (sd : LuxonDT)
    (h : (jsTruthyS rr && containsSub ("BYDAY=".data) ((rr.getD "").data)) = false) :
    daysInRuleOf rr sd = [defaultDayName sd] := by
  unfold daysInRuleOf
  rw [h]
  rfl

/-- Evaluation of `processEvent` entries for a recurring event with a known
start. -/
theorem processEntries_rec (cur : CurEvent) (rawRrule : Option String)
    (today : LuxonDT) (dsn sid : String) (sd0 : LuxonDT)
    (hsd : cur.startDate = some sd0) :
    processEntries cur rawRrule true today dsn sid =
      .ok (recEntriesOf cur rawRrule dsn sid (advancedPairOf cur true today)) := by
  unfold processEntries
  rw [hsd]
  rfl

/-- C6: a recurring record whose governing rule lists several distinct
valid weekdays produces exactly one entry per listed weekday, each with a
single-weekday descriptor, all inserted (their keys are fresh and

pairwise distinct); and with no weekday list, exactly one entry is
produced, for the weekday of the possibly-advanced start. -/
theorem c6_multiday_expansion :
    (∀ (cur : CurEvent) (r : String) (cap : List Char) (ds : List String)
        (today : LuxonDT) (dsn sid : String) (E : List (EvKey × PEvent)) (sd0 : LuxonDT),
      cur.startDate = some sd0 →
      r ≠ "" → containsSub ("BYDAY=".data) r.data = true →
      bydayCapture r.data = some cap →
      (splitOnChar ',' cap).map String.mk = ds →
      (∀ d ∈ ds, dayIdx (some d) ≠ -1) →
      (ds.map (fun d => dayIdx (some d))).Nodup →
      processEntries cur (some r) true today dsn sid = .ok E →
      (insertEntries [] E = E ∧ E.length = ds.length ∧
        E.map (fun kv => kv.2.recurrence) =
          ds.map (fun d => some ("RRULE:FREQ=WEEKLY;BYDAY=" ++ d)))) ∧
    (∀ (cur : CurEvent) (rr : Option String) (today : LuxonDT) (dsn sid : String)
        (E : List (EvKey × PEvent)) (sd0 : ZDT),
      cur.startDate = some (some sd0) →
      (jsTruthyS rr && containsSub ("BYDAY=".data) ((rr.getD "").data)) = false →
      processEntries cur rr true today dsn sid = .ok E →
      (E.length = 1 ∧
        E.map (fun kv => kv.2.recurrence) =
          [some ("RRULE:FREQ=WEEKLY;BYDAY=" ++
            (defaultDayName (advancedPairOf cur true today).1).getD "")])) := by
  constructor
  · intro cur r cap ds today dsn sid E sd0 hsd hrne hbyd hcap hds hvalid hnd hE
    rw [processEntries_rec cur (some r) today dsn sid sd0 hsd] at hE
    injection hE with hE
    subst hE
    have hdays : daysInRuleOf (some r) (advancedPairOf cur true today).1 =
        ds.map some := by
      rw [daysInRuleOf_byday r cap _ hrne hcap hbyd, ← hds]
      simp [List.map_map, Function.comp]
    unfold recEntriesOf
    rw [hdays]
    have hfilter : (ds.map some).filter (fun d => dayIdx d != -1) = ds.map some := by
      apply List.filter_eq_self.mpr
      intro d hd
      simp only [List.mem_map] at hd
      obtain ⟨d', hd', rfl⟩ := hd
      simpa using hvalid d' hd'
    rw [hfilter, List.map_map]
    refine ⟨?_, by simp, ?_⟩
    · have hfresh : ∀ k ∈ (ds.map ((fun d =>
          (EvKey.recur (baseUidOf cur.uid) (dayIdx d)
              (hourD (advancedPairOf cur true today).1)
              (minuteD (advancedPairOf cur true today).1),
            recValueOf cur dsn sid (advancedPairOf cur true today) d)) ∘ some)).map
          Prod.fst, hasKey [] k = false := fun k _ => rfl
      have hndk : ((ds.map ((fun d =>
          (EvKey.recur (baseUidOf cur.uid) (dayIdx d)
              (hourD (advancedPairOf cur true today).1)
              (minuteD (advancedPairOf cur true today).1),
            recValueOf cur dsn sid (advancedPairOf cur true today) d)) ∘ some)).map
          Prod.fst).Nodup := by
        rw [List.map_map]
        have : (Prod.fst ∘ ((fun d =>
            (EvKey.recur (baseUidOf cur.uid) (dayIdx d)
                (hourD (advancedPairOf cur true today).1)
                (minuteD (advancedPairOf cur true today).1),
              recValueOf cur dsn sid (advancedPairOf cur true today) d)) ∘ some)) =
            ((fun i => EvKey.recur (baseUidOf cur.uid) i
                (hourD (advancedPairOf cur true today).1)
                (minuteD (advancedPairOf cur true today).1)) ∘
              (fun d => dayIdx (some d))) := rfl
        rw [this, ← List.map_map]
        apply List.Nodup.map ?_ hnd
        intro a b hab
        simpa [EvKey.recur.injEq] using hab
      rw [insertEntries_fresh _ _ hfresh hndk]
      simp
    · simp [List.map_map, Function.comp, recValueOf]
  · intro cur rr today dsn sid E sd0 hsd hno hE
    rw [processEntries_rec cur rr today dsn sid (some sd0) hsd] at hE
    injection hE with hE
    subst hE
    obtain ⟨az, haz⟩ := advancedPairOf_fst_some cur today sd0 hsd
    unfold recEntriesOf
    rw [daysInRuleOf_default rr _ hno]
    have hkeep : (dayIdx (defaultDayName (advancedPairOf cur true today).1) != -1) =
        true := by
      rw [haz]
      simpa using dayIdx_defaultDayName az
    simp [hkeep, recValueOf]

/-- C6 witness: a two-weekday rule (`BYDAY=MO,WE`) produces exactly the two
single-weekday entries, both inserted; and the same record with no
governing rule produces exactly one entry for its start's weekday. -/
theorem c6_multiday_expansion_witness :
    (insertEntries []
        [(EvKey.recur "u" 1 (some 10) (some 0),
        { summary := "A",
          description := "\n\nSource: Src\noriginalUuid: u\nsessionId: sess",
          startDT := some ⟨20374, 10, 0, 0, "America/New_York"⟩,
          startTZ := "America/New_York",
          endDT := some ⟨20374, 10, 0, 0, "America/New_York"⟩,
          endTZ := "America/New_York",
          recurrence := some "RRULE:FREQ=WEEKLY;BYDAY=MO",
          source := "Src", originalUid := some "u", sessionId := "sess",
          isRecurring := true, deadlineOffset := some 2 }),
      (EvKey.recur "u" 3 (some 10) (some 0),
        { summary := "A",
          description := "\n\nSource: Src\noriginalUuid: u\nsessionId: sess",
          startDT := some ⟨20374, 10, 0, 0, "America/New_York"⟩,
          startTZ := "America/New_York",
          endDT := some ⟨20374, 10, 0, 0, "America/New_York"⟩,
          endTZ := "America/New_York",
          recurrence := some "RRULE:FREQ=WEEKLY;BYDAY=WE",
          source := "Src", originalUid := some "u", sessionId := "sess",
          isRecurring := true, deadlineOffset := some 2 })] =
      [(EvKey.recur "u" 1 (some 10) (some 0),
        { summary := "A",
          description := "\n\nSource: Src\noriginalUuid: u\nsessionId: sess",
          startDT := some ⟨20374, 10, 0, 0, "America/New_York"⟩,
          startTZ := "America/New_York",
          endDT := some ⟨20374, 10, 0, 0, "America/New_York"⟩,
          endTZ := "America/New_York",
          recurrence := some "RRULE:FREQ=WEEKLY;BYDAY=MO",
          source := "Src", originalUid := some "u", sessionId := "sess",
          isRecurring := true, deadlineOffset := some 2 }),
      (EvKey.recur "u" 3 (some 10) (some 0),
        { summary := "A",
          description := "\n\nSource: Src\noriginalUuid: u\nsessionId: sess",
          startDT := some ⟨20374, 10, 0, 0, "America/New_York"⟩,
          startTZ := "America/New_York",
          endDT := some ⟨20374, 10, 0, 0, "America/New_York"⟩,
          endTZ := "America/New_York",
          recurrence := some "RRULE:FREQ=WEEKLY;BYDAY=WE",
          source := "Src", originalUid := some "u", sessionId := "sess",
          isRecurring := true, deadlineOffset := some 2 })] ∧
      ([(EvKey.recur "u" 1 (some 10) (some 0),
        { summary := "A",
          description := "\n\nSource: Src\noriginalUuid: u\nsessionId: sess",
          startDT := some ⟨20374, 10, 0, 0, "America/New_York"⟩,
          startTZ := "America/New_York",
          endDT := some ⟨20374, 10, 0, 0, "America/New_York"⟩,
          endTZ := "America/New_York",
          recurrence := some "RRULE:FREQ=WEEKLY;BYDAY=MO",
          source := "Src", originalUid := some "u", sessionId := "sess",
          isRecurring := true, deadlineOffset := some 2 }),
      (EvKey.recur "u" 3 (some 10) (some 0),
        { summary := "A",
          description := "\n\nSource: Src\noriginalUuid: u\nsessionId: sess",
          startDT := some ⟨20374, 10, 0, 0, "America/New_York"⟩,
          startTZ := "America/New_York",
          endDT := some ⟨20374, 10, 0, 0, "America/New_York"⟩,
          endTZ := "America/New_York",
          recurrence := some "RRULE:FREQ=WEEKLY;BYDAY=WE",
          source := "Src", originalUid := some "u", sessionId := "sess",
          isRecurring := true, deadlineOffset := some 2 })] : List (EvKey × PEvent)).length = (["MO", "WE"] : List String).length ∧
      ([(EvKey.recur "u" 1 (some 10) (some 0),
        { summary := "A",
          description := "\n\nSource: Src\noriginalUuid: u\nsessionId: sess",
          startDT := some ⟨20374, 10, 0, 0, "America/New_York"⟩,
          startTZ := "America/New_York",
          endDT := some ⟨20374, 10, 0, 0, "America/New_York"⟩,
          endTZ := "America/New_York",
          recurrence := some "RRULE:FREQ=WEEKLY;BYDAY=MO",
          source := "Src", originalUid := some "u", sessionId := "sess",
          isRecurring := true, deadlineOffset := some 2 }),
      (EvKey.recur "u" 3 (some 10) (some 0),
        { summary := "A",
          description := "\n\nSource: Src\noriginalUuid: u\nsessionId: sess",
          startDT := some ⟨20374, 10, 0, 0, "America/New_York"⟩,
          startTZ := "America/New_York",
          endDT := some ⟨20374, 10, 0, 0, "America/New_York"⟩,
          endTZ := "America/New_York",
          recurrence := some "RRULE:FREQ=WEEKLY;BYDAY=WE",
          source := "Src", originalUid := some "u", sessionId := "sess",
          isRecurring := true, deadlineOffset := some 2 })] : List (EvKey × PEvent)).map (fun kv => kv.2.recurrence) =
        (["MO", "WE"] : List String).map
          (fun d => some ("RRULE:FREQ=WEEKLY;BYDAY=" ++ d))) ∧
    (([(EvKey.recur "u" 1 (some 10) (some 0),
        { summary := "A",
          description := "\n\nSource: Src\noriginalUuid: u\nsessionId: sess",
          startDT := some ⟨20374, 10, 0, 0, "America/New_York"⟩,
          startTZ := "America/New_York",
          endDT := some ⟨20374, 10, 0, 0, "America/New_York"⟩,
          endTZ := "America/New_York",
          recurrence := some "RRULE:FREQ=WEEKLY;BYDAY=MO",
          source := "Src", originalUid := some "u", sessionId := "sess",
          isRecurring := true, deadlineOffset := some 2 })] : List (EvKey × PEvent)).length = 1 ∧
      ([(EvKey.recur "u" 1 (some 10) (some 0),
        { summary := "A",
          description := "\n\nSource: Src\noriginalUuid: u\nsessionId: sess",
          startDT := some ⟨20374, 10, 0, 0, "America/New_York"⟩,
          startTZ := "America/New_York",
          endDT := some ⟨20374, 10, 0, 0, "America/New_York"⟩,
          endTZ := "America/New_York",
          recurrence := some "RRULE:FREQ=WEEKLY;BYDAY=MO",
          source := "Src", originalUid := some "u", sessionId := "sess",
          isRecurring := true, deadlineOffset := some 2 })] : List (EvKey × PEvent)).map (fun kv => kv.2.recurrence) =
        [some ("RRULE:FREQ=WEEKLY;BYDAY=" ++
          (defaultDayName (advancedPairOf
            { summary := some "A", uid := some "u", startDate := some (some ⟨20374, 10, 0, 0, "America/New_York"⟩), startTimezone := some "America/New_York" }
            true (some ⟨20367, 0, 0, 0, "America/New_York"⟩)).1).getD "")]) := by
  constructor
  · exact c6_multiday_expansion.1
      { summary := some "A", uid := some "u", startDate := some (some ⟨20374, 10, 0, 0, "America/New_York"⟩), startTimezone := some "America/New_York" }
      "FREQ=WEEKLY;BYDAY=MO,WE" ("MO,WE".data) ["MO", "WE"]
      (some ⟨20367, 0, 0, 0, "America/New_York"⟩) "Src" "sess"
      [(EvKey.recur "u" 1 (some 10) (some 0),
        { summary := "A",
          description := "\n\nSource: Src\noriginalUuid: u\nsessionId: sess",
          startDT := some ⟨20374, 10, 0, 0, "America/New_York"⟩,
          startTZ := "America/New_York",
          endDT := some ⟨20374, 10, 0, 0, "America/New_York"⟩,
          endTZ := "America/New_York",
          recurrence := some "RRULE:FREQ=WEEKLY;BYDAY=MO",
          source := "Src", originalUid := some "u", sessionId := "sess",
          isRecurring := true, deadlineOffset := some 2 }),
      (EvKey.recur "u" 3 (some 10) (some 0),
        { summary := "A",
          description := "\n\nSource: Src\noriginalUuid: u\nsessionId: sess",
          startDT := some ⟨20374, 10, 0, 0, "America/New_York"⟩,
          startTZ := "America/New_York",
          endDT := some ⟨20374, 10, 0, 0, "America/New_York"⟩,
          endTZ := "America/New_York",
          recurrence := some "RRULE:FREQ=WEEKLY;BYDAY=WE",
          source := "Src", originalUid := some "u", sessionId := "sess",
          isRecurring := true, deadlineOffset := some 2 })]
      (some ⟨20374, 10, 0, 0, "America/New_York"⟩)
      rfl (by decide) (by decide) (by decide) (by decide) (by decide) (by decide)
      (by decide)
  · exact c6_multiday_expansion.2
      { summary := some "A", uid := some "u", startDate := some (some ⟨20374, 10, 0, 0, "America/New_York"⟩), startTimezone := some "America/New_York" }
      none (some ⟨20367, 0, 0, 0, "America/New_York"⟩) "Src" "sess"
      [(EvKey.recur "u" 1 (some 10) (some 0),
        { summary := "A",
          description := "\n\nSource: Src\noriginalUuid: u\nsessionId: sess",
          startDT := some ⟨20374, 10, 0, 0, "America/New_York"⟩,
          startTZ := "America/New_York",
          endDT := some ⟨20374, 10, 0, 0, "America/New_York"⟩,
          endTZ := "America/New_York",
          recurrence := some "RRULE:FREQ=WEEKLY;BYDAY=MO",
          source := "Src", originalUid := some "u", sessionId := "sess",
          isRecurring := true, deadlineOffset := some 2 })]
      ⟨20374, 10, 0, 0, "America/New_York"⟩
      rfl (by decide) (by decide)

/-! ### C1 — the projector loop has no forward bound -/

/-- With an empty governed-weekday set the loop's counter never moves, so
no step budget suffices. -/
theorem genAux_no_governed (offs : List (String × Int)) (tz : String) (now : LuxonDT) :
    ∀ (fuel : Nat) (cur : LuxonDT) (count : Nat) (acc : List Occ), count < 5 →
      genAux [] offs tz now fuel cur count acc = none := by
  intro fuel
  induction fuel with
  | zero => intro cur count acc h; rfl
  | succ n ih =>
    intro cur count acc h
    unfold genAux
    rw [if_neg (by omega)]
    cases cur with
    | none => exact ih none count acc h
    | some c =>
      dsimp only
      have hg : governedDay [] c.day = false := by
        unfold governedDay
        cases abbrOfWeekday (weekdayOfDay c.day) with
        | none => rfl
        | some a => rfl
      rw [if_neg (by simp [hg])]
      exact ih _ count acc h

/-- C1: the claim promises termination on every input via a finite forward
bound, but the source loop `while (count < 5)` has no bound at all.  For a
publication whose filtered events are all one-time (no recurrence
descriptors), the governed-weekday set is empty, the counter never
increments, and the loop never terminates: no step budget makes the model
return, so the projector neither stops nor returns a shorter list. -/
theorem c1_projector_loops_forever :
    ∀ fuel : Nat,
      generateNext5FromEvents
        [{ summary := "One-off notice", description := "",
           startDT := some ⟨20367, 10, 0, 0, "America/New_York"⟩,
           startTZ := "America/New_York",
           endDT := some ⟨20367, 11, 0, 0, "America/New_York"⟩,
           endTZ := "America/New_York",
           recurrence := none, source := "Src", originalUid := some "u",
           sessionId := "sess", isRecurring := false, deadlineOffset := some 2 }]
        1759726800 fuel = none := by
  intro fuel
  show genAux [] [] "America/New_York" (fromInstant 1759726800 "America/New_York") fuel
      (startCursor _ 1759726800) 0 [] = none
  exact genAux_no_governed [] "America/New_York" _ fuel _ 0 [] (by omega)

/-! ### C3 — silent use of the first event's timezone -/

/-- Every occurrence the loop accepts carries the projector's single
timezone value. -/
theorem genAux_tz (g : List String) (offs : List (String × Int)) (tz : String)
    (now : LuxonDT) :
    ∀ (fuel : Nat) (cur : LuxonDT) (count : Nat) (acc : List Occ) (L : List Occ),
      (∀ o ∈ acc, o.timezone = tz) →
      genAux g offs tz now fuel cur count acc = some L →
      ∀ o ∈ L, o.timezone = tz := by
  intro fuel
  induction fuel with
  | zero =>
    intro cur count acc L hacc h
    exact absurd h (by simp [genAux])
  | succ n ih =>
    intro cur count acc L hacc h
    unfold genAux at h
    by_cases h5 : 5 ≤ count
    · rw [if_pos h5] at h
      injection h with h
      subst h
      intro o ho
      exact hacc o (List.mem_reverse.mp ho)
    · rw [if_neg h5] at h
      cases cur with
      | none => exact ih none count acc L hacc h
      | some c =>
        dsimp only at h
        by_cases hgov : governedDay g c.day = true
        · rw [if_pos hgov] at h
          by_cases hdl : gtD (some (deadlineOf offs c.zone c.day)) now = true
          · rw [if_pos hdl] at h
            refine ih _ _ _ L ?_ h
            intro o ho
            rcases List.mem_cons.mp ho with rfl | ho
            · rfl
            · exact hacc o ho
          · rw [if_neg hdl] at h
            exact ih _ count acc L hacc h
        · rw [if_neg hgov] at h
          exact ih _ count acc L hacc h

/-- C3 (amended): the projector silently resolves timezone divergence — it
never reports any condition, and every computed occurrence carries the
first event's timezone, whatever the other events carry. -/
theorem c3_all_occurrences_first_timezone (e0 : PEvent) (rest : List PEvent)
    (nowInstant : Int) (fuel : Nat) (L : List Occ)
    (h : generateNext5FromEvents (e0 :: rest) nowInstant fuel = some L) :
    ∀ o ∈ L, o.timezone = e0.startTZ := by
  unfold generateNext5FromEvents at h
  exact genAux_tz _ _ e0.startTZ _ fuel _ 0 [] L (by simp) h

/-- C3 counterexample: two events for one source that disagree on timezone
(America/New_York first, America/Chicago second).  The projector raises no
AmbiguousTimezone condition — it returns a nonempty occurrence list, all
stamped with the first event's timezone, including the Tuesday occurrences
that exist only because of the Chicago event's rule. -/
theorem c3_silent_first_timezone :
    ("America/New_York" : String) ≠ "America/Chicago" ∧
    (generateNext5FromEvents
        [{ summary := "A", description := "", startDT := some ⟨20367, 10, 0, 0, "America/New_York"⟩,
           startTZ := "America/New_York", endDT := some ⟨20367, 11, 0, 0, "America/New_York"⟩,
           endTZ := "America/New_York", recurrence := some "RRULE:FREQ=WEEKLY;BYDAY=MO",
           source := "Src", originalUid := some "u1", sessionId := "sess",
           isRecurring := true, deadlineOffset := some 2 },
         { summary := "B", description := "", startDT := some ⟨20368, 9, 0, 0, "America/Chicago"⟩,
           startTZ := "America/Chicago", endDT := some ⟨20368, 10, 0, 0, "America/Chicago"⟩,
           endTZ := "America/Chicago", recurrence := some "RRULE:FREQ=WEEKLY;BYDAY=TU",
           source := "Src", originalUid := some "u2", sessionId := "sess",
           isRecurring := true, deadlineOffset := some 2 }]
        1759726800 30).isSome = true ∧
    ((generateNext5FromEvents
        [{ summary := "A", description := "", startDT := some ⟨20367, 10, 0, 0, "America/New_York"⟩,
           startTZ := "America/New_York", endDT := some ⟨20367, 11, 0, 0, "America/New_York"⟩,
           endTZ := "America/New_York", recurrence := some "RRULE:FREQ=WEEKLY;BYDAY=MO",
           source := "Src", originalUid := some "u1", sessionId := "sess",
           isRecurring := true, deadlineOffset := some 2 },
         { summary := "B", description := "", startDT := some ⟨20368, 9, 0, 0, "America/Chicago"⟩,
           startTZ := "America/Chicago", endDT := some ⟨20368, 10, 0, 0, "America/Chicago"⟩,
           endTZ := "America/Chicago", recurrence := some "RRULE:FREQ=WEEKLY;BYDAY=TU",
           source := "Src", originalUid := some "u2", sessionId := "sess",
           isRecurring := true, deadlineOffset := some 2 }]
        1759726800 30).getD []).all
      (fun o => o.timezone == "America/New_York") = true ∧
    ((generateNext5FromEvents
        [{ summary := "A", description := "", startDT := some ⟨20367, 10, 0, 0, "America/New_York"⟩,
           startTZ := "America/New_York", endDT := some ⟨20367, 11, 0, 0, "America/New_York"⟩,
           endTZ := "America/New_York", recurrence := some "RRULE:FREQ=WEEKLY;BYDAY=MO",
           source := "Src", originalUid := some "u1", sessionId := "sess",
           isRecurring := true, deadlineOffset := some 2 },
         { summary := "B", description := "", startDT := some ⟨20368, 9, 0, 0, "America/Chicago"⟩,
           startTZ := "America/Chicago", endDT := some ⟨20368, 10, 0, 0, "America/Chicago"⟩,
           endTZ := "America/Chicago", recurrence := some "RRULE:FREQ=WEEKLY;BYDAY=TU",
           source := "Src", originalUid := some "u2", sessionId := "sess",
           isRecurring := true, deadlineOffset := some 2 }]
        1759726800 30).getD []).any
      (fun o => weekdayOfDay o.runDate.day == 2) = true := by
  refine ⟨by decide, by decide, by decide, by decide⟩

/-- C3 witness: the amended statement applied at the diverging input — the
first Tuesday occurrence is stamped with the New York timezone. -/
theorem c3_first_timezone_witness :
    (Occ.mk ⟨20375, 12, 0, 0, "America/New_York"⟩ ⟨20373, 12, 0, 0, "America/New_York"⟩
      "America/New_York" "EST" 2).timezone = "America/New_York" := by
  have h := c3_all_occurrences_first_timezone
    { summary := "A", description := "", startDT := some ⟨20367, 10, 0, 0, "America/New_York"⟩,
      startTZ := "America/New_York", endDT := some ⟨20367, 11, 0, 0, "America/New_York"⟩,
      endTZ := "America/New_York", recurrence := some "RRULE:FREQ=WEEKLY;BYDAY=MO",
      source := "Src", originalUid := some "u1", sessionId := "sess",
      isRecurring := true, deadlineOffset := some 2 }
    [{ summary := "B", description := "", startDT := some ⟨20368, 9, 0, 0, "America/Chicago"⟩,
       startTZ := "America/Chicago", endDT := some ⟨20368, 10, 0, 0, "America/Chicago"⟩,
       endTZ := "America/Chicago", recurrence := some "RRULE:FREQ=WEEKLY;BYDAY=TU",
       source := "Src", originalUid := some "u2", sessionId := "sess",
       isRecurring := true, deadlineOffset := some 2 }]
    1759726800 30
    [Occ.mk ⟨20374, 12, 0, 0, "America/New_York"⟩ ⟨20372, 12, 0, 0, "America/New_York"⟩
      "America/New_York" "EST" 2,
     Occ.mk ⟨20375, 12, 0, 0, "America/New_York"⟩ ⟨20373, 12, 0, 0, "America/New_York"⟩
      "America/New_York" "EST" 2,
     Occ.mk ⟨20381, 12, 0, 0, "America/New_York"⟩ ⟨20379, 12, 0, 0, "America/New_York"⟩
      "America/New_York" "EST" 2,
     Occ.mk ⟨20382, 12, 0, 0, "America/New_York"⟩ ⟨20380, 12, 0, 0, "America/New_York"⟩
      "America/New_York" "EST" 2,
     Occ.mk ⟨20388, 12, 0, 0, "America/New_York"⟩ ⟨20386, 12, 0, 0, "America/New_York"⟩
      "America/New_York" "EST" 2]
    (by decide)
  exact h _ (by decide)

/-! ### C5 — acceptance test and day-by-day walk of the projector -/

/-- The loop is exactly a filtered walk: when it halts, its output is the
accepted occurrences of the walked day range — each candidate day whose
weekday is governed and whose noon-run deadline (run minus the weekday's
offset days) lies strictly after `now`, in order, up to the five-occurrence
quota, with a rejected day never stopping the walk. -/
theorem genAux_characterization (g : List String) (offs : List (String × Int))
    (tz : String) (now : LuxonDT) :
    ∀ (fuel : Nat) (c : ZDT) (count : Nat) (acc L : List Occ),
      genAux g offs tz now fuel (some c) count acc = some L →
      L = acc.reverse ++
        (((dayList c.day fuel).filter (okDay g offs now c.zone)).take (5 - count)).map
          (mkOcc offs tz c.zone) := by
  intro fuel
  induction fuel with
  | zero =>
    intro c count acc L h
    exact absurd h (by simp [genAux])
  | succ n ih =>
    intro c count acc L h
    unfold genAux at h
    by_cases h5 : 5 ≤ count
    · rw [if_pos h5] at h
      injection h with h
      subst h
      have h0 : 5 - count = 0 := by omega
      simp [h0]
    · rw [if_neg h5] at h
      dsimp only at h
      have hstep : dayList c.day (n + 1) = c.day :: dayList (c.day + 1) n := rfl
      by_cases hgov : governedDay g c.day = true
      · rw [if_pos hgov] at h
        by_cases hdl : gtD (some (deadlineOf offs c.zone c.day)) now = true
        · rw [if_pos hdl] at h
          have hih := ih { c with day := c.day + 1 } (count + 1)
            (mkOcc offs tz c.zone c.day :: acc) L h
          have hok : okDay g offs now c.zone c.day = true := by
            simp [okDay, hgov, hdl]
          rw [hstep, List.filter_cons_of_pos (by simpa using hok)]
          have htake : 5 - count = (5 - (count + 1)) + 1 := by omega
          rw [htake, List.take_succ_cons]
          simpa [List.append_assoc] using hih
        · rw [if_neg hdl] at h
          have hih := ih { c with day := c.day + 1 } count acc L h
          have hok : okDay g offs now c.zone c.day = false := by
            simp [okDay, hdl]
          rw [hstep, List.filter_cons_of_neg (by simp [hok])]
          simpa using hih
      · rw [if_neg hgov] at h
        have hih := ih { c with day := c.day + 1 } count acc L h
        have hok : okDay g offs now c.zone c.day = false := by
          simp [okDay, hgov]
        rw [hstep, List.filter_cons_of_neg (by simp [hok])]
        simpa using hih

/-- C5: when the projector halts with a list, that list is precisely the
first five walked days whose weekday is governed and whose submission
deadline — the noon run timestamp in the events' (first event's) timezone
minus that weekday's offset in days, a 0 offset giving the same day — lies
strictly after `now`; rejected days are skipped without stopping the walk,
so later valid occurrences are still found. -/
theorem c5_projector_characterization (e0 : PEvent) (rest : List PEvent)
    (nowInstant : Int) (fuel : Nat) (L : List Occ) (c0 : ZDT)
    (hc : startCursor (e0 :: rest) nowInstant = some c0)
    (hL : generateNext5FromEvents (e0 :: rest) nowInstant fuel = some L) :
    L = (((dayList c0.day fuel).filter
        (okDay (collectRule (e0 :: rest)).1 (collectRule (e0 :: rest)).2
          (fromInstant nowInstant e0.startTZ) c0.zone)).take 5).map
      (mkOcc (collectRule (e0 :: rest)).2 e0.startTZ c0.zone) := by
  unfold generateNext5FromEvents at hL
  rw [hc] at hL
  have h := genAux_characterization (collectRule (e0 :: rest)).1
    (collectRule (e0 :: rest)).2 e0.startTZ (fromInstant nowInstant e0.startTZ)
    fuel c0 0 [] L hL
  simpa using h

/-- C5 witness: a Monday-only rule with offset 2, projected from a Monday
midnight: the Monday of the current week is rejected (its deadline has
passed) yet the walk continues and returns the next five Mondays, matching
the filtered-walk characterization. -/
theorem c5_projector_witness :
    ([Occ.mk ⟨20374, 12, 0, 0, "America/New_York"⟩ ⟨20372, 12, 0, 0, "America/New_York"⟩
        "America/New_York" "EST" 2,
      Occ.mk ⟨20381, 12, 0, 0, "America/New_York"⟩ ⟨20379, 12, 0, 0, "America/New_York"⟩
        "America/New_York" "EST" 2,
      Occ.mk ⟨20388, 12, 0, 0, "America/New_York"⟩ ⟨20386, 12, 0, 0, "America/New_York"⟩
        "America/New_York" "EST" 2,
      Occ.mk ⟨20395, 12, 0, 0, "America/New_York"⟩ ⟨20393, 12, 0, 0, "America/New_York"⟩
        "America/New_York" "EST" 2,
      Occ.mk ⟨20402, 12, 0, 0, "America/New_York"⟩ ⟨20400, 12, 0, 0, "America/New_York"⟩
        "America/New_York" "EST" 2] : List Occ) =
      (((dayList (⟨20367, 0, 0, 0, "America/New_York"⟩ : ZDT).day 40).filter
          (okDay (collectRule
              [{ summary := "A", description := "",
                 startDT := some ⟨20367, 10, 0, 0, "America/New_York"⟩,
                 startTZ := "America/New_York",
                 endDT := some ⟨20367, 11, 0, 0, "America/New_York"⟩,
                 endTZ := "America/New_York",
                 recurrence := some "RRULE:FREQ=WEEKLY;BYDAY=MO",
                 source := "Src", originalUid := some "u1", sessionId := "sess",
                 isRecurring := true, deadlineOffset := some 2 }]).1
            (collectRule
              [{ summary := "A", description := "",
                 startDT := some ⟨20367, 10, 0, 0, "America/New_York"⟩,
                 startTZ := "America/New_York",
                 endDT := some ⟨20367, 11, 0, 0, "America/New_York"⟩,
                 endTZ := "America/New_York",
                 recurrence := some "RRULE:FREQ=WEEKLY;BYDAY=MO",
                 source := "Src", originalUid := some "u1", sessionId := "sess",
                 isRecurring := true, deadlineOffset := some 2 }]).2
            (fromInstant 1759726800 "America/New_York")
            (⟨20367, 0, 0, 0, "America/New_York"⟩ : ZDT).zone)).take 5).map
        (mkOcc (collectRule
            [{ summary := "A", description := "",
               startDT := some ⟨20367, 10, 0, 0, "America/New_York"⟩,
               startTZ := "America/New_York",
               endDT := some ⟨20367, 11, 0, 0, "America/New_York"⟩,
               endTZ := "America/New_York",
               recurrence := some "RRULE:FREQ=WEEKLY;BYDAY=MO",
               source := "Src", originalUid := some "u1", sessionId := "sess",
               isRecurring := true, deadlineOffset := some 2 }]).2
          "America/New_York" (⟨20367, 0, 0, 0, "America/New_York"⟩ : ZDT).zone) := by
  exact c5_projector_characterization
    { summary := "A", description := "",
      startDT := some ⟨20367, 10, 0, 0, "America/New_York"⟩,
      startTZ := "America/New_York",
      endDT := some ⟨20367, 11, 0, 0, "America/New_York"⟩,
      endTZ := "America/New_York",
      recurrence := some "RRULE:FREQ=WEEKLY;BYDAY=MO",
      source := "Src", originalUid := some "u1", sessionId := "sess",
      isRecurring := true, deadlineOffset := some 2 } [] 1759726800 40
    [Occ.mk ⟨20374, 12, 0, 0, "America/New_York"⟩ ⟨20372, 12, 0, 0, "America/New_York"⟩
       "America/New_York" "EST" 2,
     Occ.mk ⟨20381, 12, 0, 0, "America/New_York"⟩ ⟨20379, 12, 0, 0, "America/New_York"⟩
       "America/New_York" "EST" 2,
     Occ.mk ⟨20388, 12, 0, 0, "America/New_York"⟩ ⟨20386, 12, 0, 0, "America/New_York"⟩
       "America/New_York" "EST" 2,
     Occ.mk ⟨20395, 12, 0, 0, "America/New_York"⟩ ⟨20393, 12, 0, 0, "America/New_York"⟩
       "America/New_York" "EST" 2,
     Occ.mk ⟨20402, 12, 0, 0, "America/New_York"⟩ ⟨20400, 12, 0, 0, "America/New_York"⟩
       "America/New_York" "EST" 2]
    ⟨20367, 0, 0, 0, "America/New_York"⟩ (by decide) (by decide)

/-! ### C9 — a malformed block aborts the whole parse -/

/-- C9: the claim says malformed blocks are skipped, never fatal, and that
a parse of decodable text always returns a record list.  Evaluating the
parser on the decodable input `BEGIN:VEVENT\nSUMMARY:x\nEND:VEVENT` — a
block with a property but no DTSTART — the whole parse instead aborts with
a TypeError: `processEvent` reads `eventStartTime.hour` in the `timeKey`
template while `eventStartTime` is `undefined`. -/
theorem c9_parser_crashes_on_block_without_dtstart :
    parseIcsContent "BEGIN:VEVENT\nSUMMARY:x\nEND:VEVENT" "http://x/cal.ics"
        (some ⟨20367, 0, 0, 0, "America/New_York"⟩) "sess" =
      .error .typeError := by
  decide

end CalendarModel
